import Mathlib

/-!
Verification development for the property-listing scraper (`src/main.py`).

The Python program is shallowly embedded: JSON values decoded by
`json.loads` are modelled by the inductive `Json` (Python `None` and JSON
`null` coincide after decoding, so both are `Json.null`); machine time,
random pacing delays and the HTTP transport are abstracted into an
environment record, and each page's network outcome is an
`Except Unit String` (error = a raised request exception, ok = response
body text).  Uncaught Python exceptions are modelled by the `crashed`
constructor of `RunOutcome`, which carries the surviving global state.
-/

/-- Model of a decoded JSON value / the Python object `json.loads` yields.
Numbers keep their source lexeme (`num "3"`, `num "3.5"`); object fields
are kept in insertion order with unique keys, as Python dicts do. -/
inductive Json where
  | null
  | bool (b : Bool)
  | num (lex : String)
  | str (s : String)
  | arr (elts : List Json)
  | obj (fields : List (String × Json))

mutual

/-- Structural equality test on `Json` (decidable equality is derived from it). -/
def jsonBeq : Json → Json → Bool
  | .null, .null => true
  | .bool a, .bool b => a == b
  | .num a, .num b => a == b
  | .str a, .str b => a == b
  | .arr a, .arr b => jsonListBeq a b
  | .obj a, .obj b => jsonFieldsBeq a b
  | _, _ => false

/-- Equality test on lists of `Json`. -/
def jsonListBeq : List Json → List Json → Bool
  | a :: as, b :: bs => jsonBeq a b && jsonListBeq as bs
  | [], [] => true
  | _, _ => false

/-- Equality test on `Json` object field lists. -/
def jsonFieldsBeq : List (String × Json) → List (String × Json) → Bool
  | (k, v) :: as, (l, w) :: bs => k == l && jsonBeq v w && jsonFieldsBeq as bs
  | [], [] => true
  | _, _ => false

end

mutual

theorem jsonBeq_iff : ∀ a b : Json, jsonBeq a b = true ↔ a = b
  | .null, b => by cases b <;> simp [jsonBeq]
  | .bool a, b => by cases b <;> simp [jsonBeq]
  | .num a, b => by cases b <;> simp [jsonBeq]
  | .str a, b => by cases b <;> simp [jsonBeq]
  | .arr a, b => by
      cases b <;> simp [jsonBeq]
      exact jsonListBeq_iff a _
  | .obj a, b => by
      cases b <;> simp [jsonBeq]
      exact jsonFieldsBeq_iff a _

theorem jsonListBeq_iff : ∀ as bs : List Json, jsonListBeq as bs = true ↔ as = bs
  | [], bs => by cases bs <;> simp [jsonListBeq]
  | a :: as, bs => by
      cases bs with
      | nil => simp [jsonListBeq]
      | cons b bs =>
        simp only [jsonListBeq, Bool.and_eq_true, List.cons.injEq]
        rw [jsonBeq_iff a b, jsonListBeq_iff as bs]

theorem jsonFieldsBeq_iff :
    ∀ as bs : List (String × Json), jsonFieldsBeq as bs = true ↔ as = bs
  | [], bs => by cases bs <;> simp [jsonFieldsBeq]
  | (k, v) :: as, bs => by
      cases bs with
      | nil => simp [jsonFieldsBeq]
      | cons b bs =>
        obtain ⟨l, w⟩ := b
        simp only [jsonFieldsBeq, Bool.and_eq_true, List.cons.injEq, Prod.mk.injEq,
          beq_iff_eq]
        rw [jsonBeq_iff v w, jsonFieldsBeq_iff as bs]

end

instance : DecidableEq Json := fun a b =>
  decidable_of_iff (jsonBeq a b = true) (jsonBeq_iff a b)

instance : BEq Json := ⟨jsonBeq⟩

instance : LawfulBEq Json where
  eq_of_beq h := (jsonBeq_iff _ _).mp h
  rfl := (jsonBeq_iff _ _).mpr rfl

instance {e a : Type} [DecidableEq e] [DecidableEq a] : DecidableEq (Except e a) :=
  fun x y =>
    match x, y with
    | .error u, .error v =>
      if h : u = v then isTrue (congrArg Except.error h)
      else isFalse (fun hc => h (Except.error.inj hc))
    | .ok u, .ok v =>
      if h : u = v then isTrue (congrArg Except.ok h)
      else isFalse (fun hc => h (Except.ok.inj hc))
    | .error _, .ok _ => isFalse (fun hc => Except.noConfusion hc)
    | .ok _, .error _ => isFalse (fun hc => Except.noConfusion hc)

/-! ### Python value helpers -/

/-- Zero test on a JSON number lexeme (Python float/int truthiness: `0`,
`0.0`, `-0.0e5` are falsy; `NaN`/`Infinity` are truthy). -/
def numIsZero (lex : String) : Bool :=
  let cs := lex.toList.dropWhile (fun c => c == '-')
  let mant := cs.takeWhile (fun c => !(c == 'e' || c == 'E'))
  mant.all (fun c => c == '0' || c == '.') && mant.any (fun c => c == '0')

/-- Python truthiness of a decoded JSON value (`if x:`). -/
def pyTruthy : Json → Bool
  | .null => false
  | .bool b => b
  | .num lex => !numIsZero lex
  | .str s => !(s == "")
  | .arr l => !l.isEmpty
  | .obj fs => !fs.isEmpty

mutual

/-- Python `repr` of a decoded JSON value (approximated: strings are
single-quoted without escaping; adequate for the inputs exercised here). -/
def pyRepr : Json → String
  | .null => "None"
  | .bool true => "True"
  | .bool false => "False"
  | .num lex => lex
  | .str s => "\x27" ++ s ++ "\x27"
  | .arr l => "[" ++ String.intercalate ", " (pyReprList l) ++ "]"
  | .obj fs => "\x7b" ++ String.intercalate ", " (pyReprFields fs) ++ "\x7d"

/-- `repr` of each element of a list. -/
def pyReprList : List Json → List String
  | [] => []
  | j :: js => pyRepr j :: pyReprList js

/-- `repr` of each `key: value` entry of a dict. -/
def pyReprFields : List (String × Json) → List String
  | [] => []
  | (k, v) :: fs => ("\x27" ++ k ++ "\x27: " ++ pyRepr v) :: pyReprFields fs

end

/-- Python `str()` of a decoded JSON value, as used by f-string interpolation. -/
def pyToStr : Json → String
  | .str s => s
  | j => pyRepr j

/-! ### Dict access (`dict.get`, item assignment) -/

/-- `d.get(k, default)` on a decoded JSON object. -/
def jgetD (j : Json) (k : String) (d : Json) : Json :=
  match j with
  | .obj fs =>
    match fs.find? (fun kv => kv.1 == k) with
    | some kv => kv.2
    | none => d
  | _ => d

/-- `d.get(k)` on a decoded JSON object (`None` when the key is absent). -/
def jget (j : Json) (k : String) : Json := jgetD j k .null

/-- Dict insertion: replace the value of an existing key in place, else
append — the semantics of both `d[k] = v` and duplicate keys in
`json.loads` (last occurrence wins, first position kept). -/
def dictInsert (fs : List (String × Json)) (k : String) (v : Json) :
    List (String × Json) :=
  if fs.any (fun kv => kv.1 == k) then
    fs.map (fun kv => if kv.1 == k then (k, v) else kv)
  else
    fs ++ [(k, v)]

/-- `p[k] = v` on a decoded JSON object. -/
def objSet (p : Json) (k : String) (v : Json) : Json :=
  match p with
  | .obj fs => .obj (dictInsert fs k v)
  | _ => p

/-! ### `make_slug` and its string pipeline -/

/-- The six ASCII characters of Python regex `\s` / `str.strip()`. -/
def pySpaceChars : List Char := [' ', '\t', '\n', '\x0d', '\x0b', '\x0c']

/-- Python regex `\s` over ASCII (also the whitespace stripped by `str.strip()`). -/
def isPySpace (c : Char) : Bool := pySpaceChars.contains c

/-- Characters matched by `[a-z0-9]`, the complement of the slug regex class. -/
def isLowerAlnum (c : Char) : Bool :=
  ('a' ≤ c && c ≤ 'z') || ('0' ≤ c && c ≤ '9')

/-- Drop a trailing run of characters satisfying `p` (right half of `strip`). -/
def rdropIf (p : Char → Bool) : List Char → List Char
  | [] => []
  | c :: cs =>
    match rdropIf p cs with
    | [] => if p c then [] else [c]
    | y => c :: y

/-- Python `str.strip()` on a character list. -/
def pyStripL (cs : List Char) : List Char :=
  rdropIf isPySpace (cs.dropWhile isPySpace)

/-- Merge each run of consecutive hyphens into a single hyphen. -/
def squeezeHyphens : List Char → List Char
  | [] => []
  | [c] => [c]
  | c :: d :: rest =>
    if c == '-' && d == '-' then squeezeHyphens (d :: rest)
    else c :: squeezeHyphens (d :: rest)

/-- `re.sub(r"[^a-z0-9]+", "-", ·)`: collapse each maximal run of
non-`[a-z0-9]` characters to a single hyphen (substitute each such
character by a hyphen, then merge consecutive hyphens). -/
def collapseNA (cs : List Char) : List Char :=
  squeezeHyphens (cs.map (fun c => if isLowerAlnum c then c else '-'))

/-- Python `str.strip("-")` on a character list. -/
def stripHyphens (cs : List Char) : List Char :=
  rdropIf (fun c => c == '-') (cs.dropWhile (fun c => c == '-'))

/-- Python `str.lower()` (ASCII). -/
def lowerL (cs : List Char) : List Char := cs.map Char.toLower

/-- `make_slug` from `src/main.py`: `None` unless all four components are
truthy, else the hyphen-collapsed slug of the space-joined components. -/
def make_slug (address city state zip_code : Json) : Option String :=
  if pyTruthy address && pyTruthy city && pyTruthy state && pyTruthy zip_code then
    let raw := pyToStr address ++ " " ++ pyToStr city ++ " " ++ pyToStr state
      ++ " " ++ pyToStr zip_code
    some (String.mk (stripHyphens (collapseNA (pyStripL (lowerL raw.toList)))))
  else
    none

/-! ### `json.loads`: a strict JSON parser

Python's `json.loads` is modelled by a recursive-descent parser over
character lists.  It is strict (no trailing commas, no unescaped control
characters) but, like CPython's default decoder, accepts the constants
`NaN`, `Infinity` and `-Infinity`. -/

/-- JSON insignificant whitespace. -/
def isJWs (c : Char) : Bool := [' ', '\t', '\n', '\x0d'].contains c

/-- Skip insignificant whitespace. -/
def skipWs (cs : List Char) : List Char := cs.dropWhile isJWs

/-- Value of a hexadecimal digit (code-point arithmetic: `0`-`9`, then the
two letter ranges). -/
def hexVal (c : Char) : Option Nat :=
  let n := c.toNat
  if 48 ≤ n && n ≤ 57 then some (n - 48)
  else if 97 ≤ n && n ≤ 102 then some (n - 87)
  else if 65 ≤ n && n ≤ 70 then some (n - 55)
  else none

/-- The single-character escapes `json.loads` accepts, as a lookup. -/
def escapeChar : Char → Option Char
  | '\"' => some '\"'
  | '\\' => some '\\'
  | '/' => some '/'
  | 'b' => some '\x08'
  | 'f' => some '\x0c'
  | 'n' => some '\n'
  | 'r' => some '\x0d'
  | 't' => some '\t'
  | _ => none

/-- Parse the body of a JSON string after the opening quote, handling the
escape sequences `json.loads` accepts and rejecting raw control characters. -/
def parseStrChars : List Char → Option (List Char × List Char)
  | [] => none
  | '\"' :: rest => some ([], rest)
  | '\\' :: rest =>
    match rest with
    | 'u' :: h1 :: h2 :: h3 :: h4 :: r2 =>
      match hexVal h1, hexVal h2, hexVal h3, hexVal h4 with
      | some a, some b, some c, some d =>
        (parseStrChars r2).map
          (fun pr => (Char.ofNat (((a * 16 + b) * 16 + c) * 16 + d) :: pr.1, pr.2))
      | _, _, _, _ => none
    | e :: r2 =>
      match escapeChar e with
      | some c => (parseStrChars r2).map (fun pr => (c :: pr.1, pr.2))
      | none => none
    | [] => none
  | c :: rest =>
    if c.toNat < 32 then none
    else (parseStrChars rest).map (fun pr => (c :: pr.1, pr.2))

/-- Parse a JSON number lexeme (`-?(0|[1-9][0-9]*)(\.[0-9]+)?([eE][+-]?[0-9]+)?`),
returning the lexeme and the remaining input. -/
def parseNumLex (cs : List Char) : Option (List Char × List Char) :=
  let (sign, cs1) :=
    match cs with
    | '-' :: r => (['-'], r)
    | _ => (([] : List Char), cs)
  match cs1 with
  | '0' :: r => some (sign ++ ['0'], r)
  | c :: r =>
    if c.isDigit then
      let ds := r.takeWhile Char.isDigit
      some (sign ++ c :: ds, r.dropWhile Char.isDigit)
    else none
  | [] => none

/-- Parse the optional fraction part `.digits+`. -/
def parseFrac (cs : List Char) : Option (List Char × List Char) :=
  match cs with
  | '.' :: r =>
    match r with
    | c :: _ =>
      if c.isDigit then
        some ('.' :: r.takeWhile Char.isDigit, r.dropWhile Char.isDigit)
      else none
    | [] => none
  | _ => some ([], cs)

/-- Parse the optional exponent part `[eE][+-]?digits+`. -/
def parseExp (cs : List Char) : Option (List Char × List Char) :=
  match cs with
  | c :: r =>
    if c == 'e' || c == 'E' then
      let (sign, r1) :=
        match r with
        | '+' :: r2 => (['+'], r2)
        | '-' :: r2 => (['-'], r2)
        | _ => (([] : List Char), r)
      match r1 with
      | d :: _ =>
        if d.isDigit then
          some (c :: sign ++ r1.takeWhile Char.isDigit, r1.dropWhile Char.isDigit)
        else none
      | [] => none
    else some ([], cs)
  | [] => some ([], cs)

/-- Parse a complete JSON number, returning its lexeme. -/
def parseNumber (cs : List Char) : Option (String × List Char) :=
  match parseNumLex cs with
  | none => none
  | some (intPart, r1) =>
    match parseFrac r1 with
    | none => none
    | some (fracPart, r2) =>
      match parseExp r2 with
      | none => none
      | some (expPart, r3) => some (String.mk (intPart ++ fracPart ++ expPart), r3)

/-- Match a literal character sequence, returning the rest of the input. -/
def dropLit : List Char → List Char → Option (List Char)
  | [], cs => some cs
  | l :: ls, c :: cs => if c == l then dropLit ls cs else none
  | _ :: _, [] => none

/-- The literal tokens `json.loads` accepts (including, like CPython's
default decoder, the non-standard `NaN` and infinities), with the value
each one decodes to. -/
def constantTable : List (List Char × Json) :=
  [(['n', 'u', 'l', 'l'], .null),
   (['t', 'r', 'u', 'e'], .bool true),
   (['f', 'a', 'l', 's', 'e'], .bool false),
   (['N', 'a', 'N'], .num "NaN"),
   (['I', 'n', 'f', 'i', 'n', 'i', 't', 'y'], .num "Infinity"),
   (['-', 'I', 'n', 'f', 'i', 'n', 'i', 't', 'y'], .num "-Infinity")]

/-- Try each literal token at the head of the input. -/
def matchConstant : List (List Char × Json) → List Char → Option (Json × List Char)
  | [], _ => none
  | (tok, v) :: table, cs =>
    match dropLit tok cs with
    | some rest => some (v, rest)
    | none => matchConstant table cs

mutual

/-- Parse one JSON value.  The fuel argument bounds recursion depth; it is
initialised to more than the input length, which suffices because every
recursive call first consumes at least one character. -/
def parseVal : Nat → List Char → Option (Json × List Char)
  | 0, _ => none
  | fuel + 1, cs =>
    match skipWs cs with
    | '\"' :: rest =>
      (parseStrChars rest).map (fun r => (.str (String.mk r.1), r.2))
    | '\x7b' :: rest =>
      match skipWs rest with
      | '\x7d' :: r => some (.obj [], r)
      | r => parseMembers fuel r []
    | '[' :: rest =>
      match skipWs rest with
      | ']' :: r => some (.arr [], r)
      | r => parseElems fuel r []
    | cs1 =>
      match matchConstant constantTable cs1 with
      | some res => some res
      | none => (parseNumber cs1).map (fun r => (.num r.1, r.2))

/-- Parse the members of a JSON object (after `{`, at least one member). -/
def parseMembers : Nat → List Char → List (String × Json) →
    Option (Json × List Char)
  | 0, _, _ => none
  | fuel + 1, cs, acc =>
    match skipWs cs with
    | '\"' :: r =>
      match parseStrChars r with
      | none => none
      | some (keyChars, r1) =>
        match skipWs r1 with
        | ':' :: r2 =>
          match parseVal fuel r2 with
          | none => none
          | some (v, r3) =>
            let acc' := dictInsert acc (String.mk keyChars) v
            match skipWs r3 with
            | ',' :: r4 => parseMembers fuel r4 acc'
            | '\x7d' :: r4 => some (.obj acc', r4)
            | _ => none
        | _ => none
    | _ => none

/-- Parse the elements of a JSON array (after `[`, at least one element). -/
def parseElems : Nat → List Char → List Json → Option (Json × List Char)
  | 0, _, _ => none
  | fuel + 1, cs, acc =>
    match parseVal fuel cs with
    | none => none
    | some (v, r1) =>
      match skipWs r1 with
      | ',' :: r2 => parseElems fuel r2 (acc ++ [v])
      | ']' :: r2 => some (.arr (acc ++ [v]), r2)
      | _ => none

end

/-- `json.loads`: parse a complete JSON document (trailing whitespace only). -/
def json_loads (s : String) : Option Json :=
  match parseVal (s.length + 1) s.toList with
  | some (v, rest) => if (skipWs rest).isEmpty then some v else none
  | none => none

/-! ### `parse_model`: embedded-model extraction -/

/-- Try to match `let\s+model\s*=\s*\{` at the head of the input, returning
the suffix starting at the opening brace. -/
def matchModelHead (cs : List Char) : Option (List Char) :=
  match dropLit ['l', 'e', 't'] cs with
  | none => none
  | some r1 =>
    match r1 with
    | [] => none
    | c :: r2 =>
      if isPySpace c then
        match dropLit ['m', 'o', 'd', 'e', 'l'] (r2.dropWhile isPySpace) with
        | none => none
        | some r3 =>
          match r3.dropWhile isPySpace with
          | '=' :: r4 =>
            match r4.dropWhile isPySpace with
            | '\x7b' :: r5 => some ('\x7b' :: r5)
            | _ => none
          | _ => none
      else none

/-- The lazy group `(\{.*?\});`: shortest prefix (starting at the brace)
that ends with `}` immediately followed by `;`. -/
def takeToCloseSemi : List Char → Option (List Char)
  | [] => none
  | '\x7d' :: ';' :: _ => some ['\x7d']
  | c :: rest => (takeToCloseSemi rest).map (fun r => c :: r)

/-- `re.search(r"let\s+model\s*=\s*(\{.*?\});", text, re.DOTALL)`: leftmost
match, returning the captured group. -/
def patternSearch : List Char → Option (List Char)
  | [] => none
  | cs@(_ :: rest) =>
    match matchModelHead cs with
    | some braceSuffix =>
      match takeToCloseSemi braceSuffix with
      | some cap => some cap
      | none => patternSearch rest
    | none => patternSearch rest

/-- One pass of `re.sub(r",(\s*[}\]])", r"\1", ·)` driven by fuel (one unit
per consumed character): drop each comma that precedes only whitespace and a
closing brace or bracket. -/
def rtcGo : Nat → List Char → List Char
  | 0, cs => cs
  | _, [] => []
  | fuel + 1, ',' :: rest =>
    match rest.dropWhile isPySpace with
    | '\x7d' :: r3 => rest.takeWhile isPySpace ++ '\x7d' :: rtcGo fuel r3
    | ']' :: r3 => rest.takeWhile isPySpace ++ ']' :: rtcGo fuel r3
    | _ => ',' :: rtcGo fuel rest
  | fuel + 1, c :: rest => c :: rtcGo fuel rest

/-- `re.sub(r",(\s*[}\]])", r"\1", ·)`: strip trailing commas before closing
braces / brackets. -/
def removeTrailingCommas (cs : List Char) : List Char := rtcGo (cs.length + 1) cs

/-- `parse_model` from `src/main.py`: search for the embedded `let model =`
assignment, strip trailing commas, decode; `None` when the pattern is absent
or decoding fails. -/
def parse_model (text : String) : Option Json :=
  match patternSearch text.toList with
  | none => none
  | some captured => json_loads (String.mk (removeTrailingCommas captured))

/-! ### Data model: pages, progress, store -/

/-- The page-1 `meta` block (`searchStates` / `portfolios`). -/
structure Meta where
  searchStates : Json
  portfolios : Json
deriving DecidableEq

/-- The `pagination` dict built by `fetch_page`.  Each key is always
present once the page parsed; absent upstream values surface as `null`. -/
structure Pagination where
  currentPage : Json
  totalPages : Json
  count : Json
  pageSize : Json
deriving DecidableEq

/-- One fetched page.  `pagination = none` models the empty dict of a
failed fetch. -/
structure PageResult where
  properties : List Json
  meta : Option Meta
  pagination : Option Pagination
deriving DecidableEq

/-- `{"properties": [], "meta": None, "pagination": {}}`. -/
def emptyPageResult : PageResult := ⟨[], none, none⟩

/-- The Python exceptions the embedding distinguishes. -/
inductive PyErr where
  | typeError
  | ioError
  | attributeError
deriving DecidableEq

/-- The `PROGRESS["message"]` strings, as structured values (each
constructor is one of the f-strings in the source). -/
inductive ProgressMessage where
  | idle
  | starting
  | scraping (page : Int) (total : Int)
  | manuallyStopped
  | completed (count : Nat) (durationSeconds : Nat)
deriving DecidableEq

/-- The `PROGRESS` dict.  `total` holds the raw value assigned by
`PROGRESS["total"] = total_pages`, which need not be an integer. -/
structure Progress where
  running : Bool
  page : Int
  total : Json
  startedAt : Option Nat
  finishedAt : Option Nat
  durationSeconds : Option Nat
  message : ProgressMessage
deriving DecidableEq

/-- The module-initialisation value of `PROGRESS`. -/
def initialProgress : Progress := ⟨false, 0, .num "0", none, none, none, .idle⟩

/-! ### `fetch_page` -/

/-- Python iteration `for p in x:` over a decoded value: lists yield their
elements, strings their characters, dicts their keys; other values raise
`TypeError`. -/
def pyIter : Json → Except PyErr (List Json)
  | .arr l => .ok l
  | .str s => .ok (s.toList.map (fun c => .str (String.mk [c])))
  | .obj fs => .ok (fs.map (fun kv => .str kv.1))
  | _ => .error .typeError

/-- `DETAIL_BASE` from `src/main.py`. -/
def DETAIL_BASE : String := "https://www.vrmproperties.com/Property-For-Sale/"

/-- `IMAGE_BASE`/suffix of the media URL f-string in `fetch_page`. -/
def IMAGE_BASE : String := "https://s3.amazonaws.com/photos.vrmresales.com/"

/-- The body of `fetch_page`'s record loop: derive the slug, store
`propertyUrl` (null unless the slug is truthy) and `imageUrl` (null unless
`mediaGuid` is truthy) on the record. -/
def normalizeRecord (p : Json) : Json :=
  let slug := make_slug (jget p "addressLine1") (jget p "city") (jget p "state")
    (jget p "zip")
  let p1 := objSet p "propertyUrl"
    (match slug with
     | some s =>
       if s == "" then .null
       else .str (DETAIL_BASE ++ pyToStr (jget p "assetId") ++ "/" ++ s)
     | none => .null)
  objSet p1 "imageUrl"
    (if pyTruthy (jget p1 "mediaGuid") then
      .str (IMAGE_BASE ++ pyToStr (jget p1 "mediaGuid") ++ ".jpg")
    else .null)

/-- `for p in model.get("properties", [])`: normalise each record; a
non-dict item raises (`AttributeError` on `.get`), which the caller's
`except` absorbs. -/
def buildProps (model : Json) : Except PyErr (List Json) :=
  match pyIter (jgetD model "properties" (.arr [])) with
  | .error e => .error e
  | .ok items =>
    items.mapM (fun p =>
      match p with
      | .obj _ => Except.ok (normalizeRecord p)
      | _ => Except.error PyErr.attributeError)

/-- `fetch_page` from `src/main.py`, as a function of the observed
`SCRAPE_ACTIVE` flag, the page number and the page's network outcome.
Every failure path — inactive flag, raised request, missing pattern,
decode error, falsy model, exception while normalising records — returns
the empty `PageResult`; totality of this function models that `fetch_page`
never propagates an exception. -/
def fetch_page (active : Bool) (page : Int) (resp : Except Unit String) : PageResult :=
  if !active then emptyPageResult
  else
    match resp with
    | .error _ => emptyPageResult
    | .ok text =>
      match parse_model text with
      | none => emptyPageResult
      | some model =>
        if !pyTruthy model then emptyPageResult
        else
          match buildProps model with
          | .error _ => emptyPageResult
          | .ok props =>
            let pagination : Pagination :=
              ⟨jget model "currentPage", jget model "totalPages",
                jget model "count", jget model "pageSize"⟩
            let meta : Option Meta :=
              if page == 1 then
                some ⟨jgetD model "searchStates" (.arr []),
                  jgetD model "portfolios" (.arr [])⟩
              else none
            ⟨props, meta, some pagination⟩

/-! ### Total-page discovery -/

/-- `first["pagination"].get("totalPages", 1)`: the raw value read from
page 1's pagination dict.  The dict always carries the key when the page
parsed (possibly with value `None`), so the default `1` applies only to
the empty dict of a failed page. -/
def getTotalPagesRaw : Option Pagination → Json
  | none => .num "1"
  | some pg => pg.totalPages

/-- Digits to a natural number. -/
def digitsToNat (ds : List Char) : Nat :=
  ds.foldl (fun acc c => acc * 10 + (c.toNat - '0'.toNat)) 0

/-- The integer denoted by a lexeme of shape `-?[0-9]+`, if any. -/
def intLexeme? (lex : String) : Option Int :=
  match lex.toList with
  | '-' :: ds =>
    if !ds.isEmpty && ds.all Char.isDigit then some (-(digitsToNat ds : Int)) else none
  | ds =>
    if !ds.isEmpty && ds.all Char.isDigit then some (digitsToNat ds : Int) else none

/-- `range(2, t + 1)` needs an integer bound: Python accepts `int` (and
`bool`, which is an `int` subtype) and raises `TypeError` on `None`,
floats, strings and containers. -/
def pyIntOfJson : Json → Except PyErr Int
  | .bool b => .ok (if b then 1 else 0)
  | .num lex =>
    match intLexeme? lex with
    | some n => .ok n
    | none => .error .typeError
  | _ => .error .typeError

/-- `range(lo, hi + 1)` as a list: `[lo, ..., hi]`, empty when `hi < lo`. -/
def intRange (lo hi : Int) : List Int :=
  (List.range (hi + 1 - lo).toNat).map (fun i => lo + (i : Int))

/-! ### Snapshot store and persistence -/

/-- One timestamped snapshot file `properties_<stamp>.json` (every file the
glob `properties_*.json` can see is of this shape) with its filesystem
modification time. -/
structure Snapshot where
  stamp : Nat
  mtime : Nat
deriving DecidableEq

/-- The `data` dict assembled at the end of `scrape_all_pages`.  Wall-clock
instants are abstracted to naturals; `meta = none` models the empty-dict
default of `next(..., {})`. -/
structure RunData where
  count : Nat
  new_discoveries : Nat
  properties : List Json
  meta : Option Meta
  pagination : Option Pagination
  fetched_at : Nat
  scrape_started_at : Nat
  scrape_finished_at : Nat
  duration_seconds : Nat
deriving DecidableEq

/-- The durable file-store state: the `latest` artifact
(`data/properties.json`), the timestamped snapshots, and the known-ids
file (`none` = file does not exist). -/
structure Store where
  latest : Option RunData
  snapshots : List Snapshot
  knownIds : Option (List Json)
deriving DecidableEq

/-- Insert into a descending-by-mtime list, before any equal key already
present. -/
def insertByMtimeDesc (s : Snapshot) : List Snapshot → List Snapshot
  | [] => [s]
  | t :: rest =>
    if s.mtime < t.mtime then t :: insertByMtimeDesc s rest
    else s :: t :: rest

/-- Python's stable `sorted(snapshots, key=os.path.getmtime, reverse=True)`
(insertion sort; stability matches `sorted`). -/
def sortSnapshotsDesc : List Snapshot → List Snapshot
  | [] => []
  | s :: rest => insertByMtimeDesc s (sortSnapshotsDesc rest)

/-- `save_properties_to_disk` from `src/main.py` over the file-store state.
`latestFail` / `snapFail` inject an `OSError` raised by the corresponding
`write_text` — uncaught in the source, hence surfaced as a `PyErr` — and
the returned store reflects whatever succeeded before the raise.
`unlinkFails` injects per-file `unlink` failures, which the source catches
and logs: a file whose deletion fails simply survives.  `now` is the UTC
timestamp used for the new snapshot's name and modification time. -/
def save_properties_to_disk (st : Store) (data : RunData) (now : Nat)
    (latestFail snapFail : Bool) (unlinkFails : Nat → Bool) :
    Option PyErr × Store :=
  if latestFail then (some .ioError, st)
  else
    let st1 : Store := { st with latest := some data }
    if snapFail then (some .ioError, st1)
    else
      let st2 : Store := { st1 with snapshots := st1.snapshots ++ [⟨now, now⟩] }
      let sorted := sortSnapshotsDesc st2.snapshots
      let survivors := sorted.take 5 ++ (sorted.drop 5).filter (fun s => unlinkFails s.stamp)
      (none, { st2 with snapshots := survivors })

/-! ### `scrape_all_pages` -/

/-- Environment of one `scrape_all_pages` run: the network response per
page, the file-store state at run start, the `PROGRESS` value before the
run, the abstracted clock, fault injection for the three persistence
writes and the snapshot deletions, and `killAt` — the page index at whose
processing the run first observes `SCRAPE_ACTIVE = False` (a `/kill`
request landing at that page boundary; `none` = no kill during the run). -/
structure RunEnv where
  responses : Int → Except Unit String
  killAt : Option Int
  store : Store
  progress0 : Progress
  startTime : Nat
  endTime : Nat
  latestFail : Bool
  snapFail : Bool
  knownFail : Bool
  unlinkFails : Nat → Bool

/-- The `SCRAPE_ACTIVE` flag as observed while processing page `p` (the
run sets it to `True` at start; `/kill` is the only writer of `False`, so
the flag is monotone within a run). -/
def activeFor (killAt : Option Int) (p : Int) : Bool :=
  match killAt with
  | none => true
  | some k => p < k

/-- Outcome of `scrape_all_pages`: normal return, or an uncaught exception
(`crashed`) — both carry the surviving `PROGRESS` global, the file-store
state, and the trace of pages whose processing was reached. -/
inductive RunOutcome where
  | ok (data : RunData) (progress : Progress) (store : Store) (trace : List Int)
  | crashed (err : PyErr) (progress : Progress) (store : Store) (trace : List Int)
deriving DecidableEq

/-- The surviving `PROGRESS` of an outcome. -/
def RunOutcome.progressOf : RunOutcome → Progress
  | .ok _ p _ _ => p
  | .crashed _ p _ _ => p

/-- The surviving file-store state of an outcome. -/
def RunOutcome.storeOf : RunOutcome → Store
  | .ok _ _ s _ => s
  | .crashed _ _ s _ => s

/-- Whether the run aborted with an uncaught exception. -/
def RunOutcome.isCrashed : RunOutcome → Bool
  | .ok _ _ _ _ => false
  | .crashed _ _ _ _ => true

/-- The visited-page trace of an outcome. -/
def RunOutcome.traceOf : RunOutcome → List Int
  | .ok _ _ _ tr => tr
  | .crashed _ _ _ tr => tr

/-- The returned `data` of a normally completed run. -/
def RunOutcome.dataOf : RunOutcome → Option RunData
  | .ok d _ _ _ => some d
  | .crashed _ _ _ _ => none

/-- The page loop of `scrape_all_pages` (`for p in range(2, total + 1)`):
check the cancellation flag, update `PROGRESS`, fetch — the pacing sleeps
have no observable effect on the data flow and are omitted.  Returns the
collected `PageResult`s, the final `PROGRESS`, and the visited pages. -/
def collectPages (env : RunEnv) (total : Int) :
    List Int → Progress → List PageResult × Progress × List Int
  | [], prog => ([], prog, [])
  | p :: rest, prog =>
    if activeFor env.killAt p then
      let prog1 := { prog with page := p, message := .scraping p total }
      let pr := fetch_page (activeFor env.killAt p) p (env.responses p)
      let (rs, progF, tr) := collectPages env total rest prog1
      (pr :: rs, progF, p :: tr)
    else ([], prog, [])

/-- The new-identifier loop of `scrape_all_pages`: truthy `assetId`s not
in the known set, deduplicated (`new_ids` is a Python set), in first-seen
order. -/
def computeNewIds (known : List Json) (props : List Json) : List Json :=
  props.foldl (fun acc p =>
    let pid := jget p "assetId"
    if pyTruthy pid && !known.contains pid && !acc.contains pid then acc ++ [pid]
    else acc) []

/-- `known = load_known_ids()`: the decoded known-ids file, or the empty
set when the file does not exist. -/
def runKnown (env : RunEnv) : List Json := env.store.knownIds.getD []

/-- The `PROGRESS.update({...})` at run start (note: `duration_seconds` is
not among the updated keys, so the previous value persists). -/
def runProg0 (env : RunEnv) : Progress :=
  { running := true, page := 0, total := .num "0",
    startedAt := some env.startTime, finishedAt := none,
    durationSeconds := env.progress0.durationSeconds, message := .starting }

/-- `first = await fetch_page(client, 1, session_headers)`. -/
def runFirst (env : RunEnv) : PageResult :=
  fetch_page (activeFor env.killAt 1) 1 (env.responses 1)

/-- `total_pages = first["pagination"].get("totalPages", 1)` (raw value). -/
def runRawTotal (env : RunEnv) : Json := getTotalPagesRaw (runFirst env).pagination

/-- `PROGRESS` after `PROGRESS["total"] = total_pages`. -/
def runProg1 (env : RunEnv) : Progress := { runProg0 env with total := runRawTotal env }

/-- The page loop over `range(2, total + 1)`: collected results, final
`PROGRESS`, visited pages. -/
def runLoop (env : RunEnv) (total : Int) : List PageResult × Progress × List Int :=
  collectPages env total (intRange 2 total) (runProg1 env)

/-- `all_props = first["properties"] + [p for page in results for p in page["properties"]]`. -/
def runAllProps (env : RunEnv) (total : Int) : List Json :=
  (runFirst env).properties ++ ((runLoop env total).1.map PageResult.properties).flatten

/-- `meta = first["meta"] or next((r["meta"] for r in results if r["meta"]), {})`
(a populated meta dict is always truthy; `none` models the `{}` default). -/
def runMeta (env : RunEnv) (total : Int) : Option Meta :=
  match (runFirst env).meta with
  | some m => some m
  | none => ((runLoop env total).1.filterMap PageResult.meta).head?

/-- The run's `new_ids` accumulator. -/
def runNewIds (env : RunEnv) (total : Int) : List Json :=
  computeNewIds (runKnown env) (runAllProps env total)

/-- The known-ids file state after `save_known_ids(known.union(new_ids))`,
executed only when `new_ids` is non-empty. -/
def runStore1 (env : RunEnv) (total : Int) : Store :=
  if !(runNewIds env total).isEmpty then
    { env.store with knownIds := some (runKnown env ++ runNewIds env total) }
  else env.store

/-- The `data` dict assembled before persistence. -/
def runData (env : RunEnv) (total : Int) : RunData :=
  { count := (runAllProps env total).length,
    new_discoveries := (runNewIds env total).length,
    properties := runAllProps env total,
    meta := runMeta env total,
    pagination := (runFirst env).pagination,
    fetched_at := env.endTime,
    scrape_started_at := env.startTime,
    scrape_finished_at := env.endTime,
    duration_seconds := env.endTime - env.startTime }

/-- The final `PROGRESS.update({...})` after a completed run. -/
def runProgF (env : RunEnv) (total : Int) : Progress :=
  { (runLoop env total).2.1 with
      running := false, finishedAt := some env.endTime,
      durationSeconds := some (env.endTime - env.startTime),
      message := .completed (runAllProps env total).length (env.endTime - env.startTime) }

/-- `scrape_all_pages` from `src/main.py`, composed from the pieces above:
fetch page 1, read the total-page count, loop pages 2..total with
cancellation checks, aggregate records, classify new identifiers, persist
the known-id set (only when it grew) and the snapshot, and finalise
`PROGRESS`.  The three uncaught-exception sites — a non-integer
`total_pages` reaching `range`, and the two persistence writes — surface
as `crashed`. -/
def scrape_all_pages (env : RunEnv) : RunOutcome :=
  match pyIntOfJson (runRawTotal env) with
  | .error e => .crashed e (runProg1 env) env.store [1]
  | .ok total =>
    if !(runNewIds env total).isEmpty && env.knownFail then
      .crashed .ioError (runLoop env total).2.1 env.store (1 :: (runLoop env total).2.2)
    else
      match save_properties_to_disk (runStore1 env total) (runData env total)
          env.endTime env.latestFail env.snapFail env.unlinkFails with
      | (some e, st') => .crashed e (runLoop env total).2.1 st' (1 :: (runLoop env total).2.2)
      | (none, st') =>
        .ok (runData env total) (runProgF env total) st' (1 :: (runLoop env total).2.2)

/-! ### Endpoints: `/properties` (start) and `/kill` -/

/-- The mutable application globals the endpoints touch: `PROGRESS`,
`SCRAPE_ACTIVE`, and a counter of background runs scheduled via
`background_tasks.add_task` (the run itself executes later). -/
structure AppState where
  progress : Progress
  scrapeActive : Bool
  spawned : Nat
deriving DecidableEq

/-- The only HTTP rejection the two modelled endpoints raise. -/
inductive HTTPError where
  | unauthorized
deriving DecidableEq

/-- `if expected_secret and x_api_key != expected_secret:` — the auth
guard; an unset or empty `ZAPIER_SECRET` disables it. -/
def authOk (secret key : Option String) : Bool :=
  match secret with
  | none => true
  | some s => s == "" || key == some s

/-- The JSON bodies `start_properties_scrape` can return. -/
inductive StartResponse where
  | alreadyRunning (progress : Progress)
  | started (progress : Progress)
deriving DecidableEq

/-- `POST /properties` (`start_properties_scrape`): auth check, reject
when already running, otherwise schedule the background run.  Returns the
response (or the 401 rejection) together with the post-request state. -/
def start_properties_scrape (secret key : Option String) (st : AppState) :
    Except HTTPError StartResponse × AppState :=
  if !authOk secret key then (.error .unauthorized, st)
  else if st.progress.running then (.ok (.alreadyRunning st.progress), st)
  else (.ok (.started st.progress), { st with spawned := st.spawned + 1 })

/-- `POST /kill` (`kill_scraper`): clears `SCRAPE_ACTIVE` and marks
`PROGRESS` as not running with the manually-stopped message. -/
def kill_scraper (secret key : Option String) (st : AppState) :
    Except HTTPError Unit × AppState :=
  if !authOk secret key then (.error .unauthorized, st)
  else
    (.ok (),
      { st with
          scrapeActive := false,
          progress :=
            { st.progress with running := false, message := .manuallyStopped } })

/-! ### Spec-side definitions and concrete scenarios -/

/-- A nullable string component as the decoded JSON value it comes from. -/
def optJson : Option String → Json
  | none => .null
  | some s => .str s

/-- The slug described by the specification's words: the lower-cased raw
string with runs of non-alphanumeric characters collapsed to single
hyphens and no leading or trailing hyphens (no other normalisation). -/
def specSlug (s : String) : String :=
  String.mk (stripHyphens (collapseNA (lowerL s.toList)))

/-- A nullable string component that is present and non-empty. -/
def optNonempty (o : Option String) : Prop := ∃ s, o = some s ∧ s ≠ ""

/-- An empty file store (fresh deployment). -/
def emptyStore : Store := ⟨none, [], none⟩

/-- A run environment with the given responses, known-ids file and kill
schedule, and no persistence faults. -/
def mkEnv (responses : Int → Except Unit String) (killAt : Option Int)
    (store : Store) : RunEnv :=
  { responses := responses, killAt := killAt, store := store,
    progress0 := initialProgress, startTime := 100, endTime := 200,
    latestFail := false, snapFail := false, knownFail := false,
    unlinkFails := fun _ => false }

/-- Page-1 body whose model carries records `A`, `C`, `D` and one page. -/
def bodyACD : String :=
  "let model = \x7b\"properties\": [\x7b\"assetId\": \"A\"\x7d, \x7b\"assetId\": \"C\"\x7d, \x7b\"assetId\": \"D\"\x7d], \"totalPages\": 1, \"currentPage\": 1\x7d;"

/-- The C2 scenario: known set `{A, B}`, one page with identifiers `A, C, D`. -/
def envC2 : RunEnv :=
  mkEnv (fun p => if p == 1 then .ok bodyACD else .error ()) none
    ⟨none, [], some [.str "A", .str "B"]⟩

/-- Page-1 body whose single record carries the empty-string identifier. -/
def bodyEmptyId : String :=
  "let model = \x7b\"properties\": [\x7b\"assetId\": \"\"\x7d], \"totalPages\": 1\x7d;"

/-- The C2 counterexample scenario: a non-null but empty identifier. -/
def envC2cex : RunEnv :=
  mkEnv (fun p => if p == 1 then .ok bodyEmptyId else .error ()) none
    ⟨none, [], some [.str "A", .str "B"]⟩

/-- Page-1 body that parses fine but declares `"totalPages": null`. -/
def bodyNullTotal : String :=
  "let model = \x7b\"properties\": [], \"totalPages\": null, \"currentPage\": 1\x7d;"

/-- The C5 counterexample scenario: a present-but-null total-page count. -/
def envC5cex : RunEnv :=
  mkEnv (fun p => if p == 1 then .ok bodyNullTotal else .error ()) none emptyStore

/-- The C6 scenario: a successful fetch, but the `latest`-artifact write
raises. -/
def envC6 : RunEnv :=
  { mkEnv (fun p => if p == 1 then .ok bodyACD else .error ()) none
      ⟨none, [], some [.str "A", .str "B"]⟩ with
    latestFail := true }

/-- Page-1 body: one record, three declared pages. -/
def bodyC7p1 : String :=
  "let model = \x7b\"properties\": [\x7b\"assetId\": \"A\"\x7d], \"totalPages\": 3, \"currentPage\": 1\x7d;"

/-- Later-page body: zero records. -/
def bodyC7rest : String :=
  "let model = \x7b\"properties\": [], \"totalPages\": 3\x7d;"

/-- The C7 counterexample scenario: three pages, pages 2 and 3 empty,
killed at the page-2 boundary. -/
def envC7 : RunEnv :=
  mkEnv (fun p => if p == 1 then .ok bodyC7p1 else .ok bodyC7rest) (some 2) emptyStore

/-- The same catalog without a kill. -/
def envC7full : RunEnv := { envC7 with killAt := none }

/-- A three-page catalog in which every page carries one record, unkilled
(used to witness the strict count drop under a kill). -/
def envC7s : RunEnv := mkEnv (fun _ => .ok bodyC7p1) none emptyStore

/-- A previously persisted dataset (one record). -/
def dataOld : RunData := ⟨1, 0, [.obj [("assetId", .str "old")]], none, none, 7, 7, 7, 0⟩

/-- The C10 witness scenario: every fetch fails, while the store holds a
previous `latest` dataset, one older snapshot and a known-id set. -/
def envC10w : RunEnv :=
  mkEnv (fun _ => .error ()) none ⟨some dataOld, [⟨7, 7⟩], some [.str "A"]⟩

/-- A zero-record dataset for exercising `save_properties_to_disk`. -/
def dataEmpty : RunData := ⟨0, 0, [], none, none, 0, 0, 0, 0⟩

/-- A store already holding six timestamped snapshots. -/
def stSix : Store := ⟨none, [⟨1, 1⟩, ⟨2, 2⟩, ⟨3, 3⟩, ⟨4, 4⟩, ⟨5, 5⟩, ⟨6, 6⟩], none⟩

/-- An application state whose `PROGRESS` reports a running scrape. -/
def stRunning : AppState := ⟨{ initialProgress with running := true }, true, 0⟩

/-! ## Helper lemmas -/

theorem fetch_page_error (active : Bool) (page : Int) :
    fetch_page active page (.error ()) = emptyPageResult := by
  cases active <;> rfl

theorem fetch_page_parse_none (active : Bool) (page : Int) (t : String)
    (h : parse_model t = none) :
    fetch_page active page (.ok t) = emptyPageResult := by
  cases active <;> simp [fetch_page, h]

theorem find?_map_replace_self (k : String) (v : Json) :
    ∀ fs : List (String × Json),
      (fs.map (fun kv => if kv.1 == k then (k, v) else kv)).find? (fun kv => kv.1 == k)
        = if fs.any (fun kv => kv.1 == k) then some (k, v) else none
  | [] => by simp
  | a :: as => by
      cases hbeq : (a.1 == k) with
      | true =>
        simp only [List.map_cons, List.find?_cons, List.any_cons, hbeq, if_true,
          Bool.true_or]
        simp
      | false =>
        simp only [List.map_cons, List.find?_cons, List.any_cons, hbeq,
          Bool.false_or]
        rw [if_neg (by simp)]
        rw [find?_map_replace_self k v as]
        simp [hbeq]

theorem find?_map_replace_other (k k' : String) (v : Json) (hne : k' ≠ k) :
    ∀ fs : List (String × Json),
      (fs.map (fun kv => if kv.1 == k then (k, v) else kv)).find? (fun kv => kv.1 == k')
        = fs.find? (fun kv => kv.1 == k')
  | [] => by simp
  | a :: as => by
      cases hbeq : (a.1 == k) with
      | true =>
        have ha : a.1 = k := by simpa using hbeq
        have h1 : (k == k') = false := by
          simp only [beq_eq_false_iff_ne, ne_eq]
          exact fun hkk => hne hkk.symm
        have h2 : (a.1 == k') = false := by rw [ha]; exact h1
        simp only [List.map_cons, List.find?_cons, hbeq, if_true, h1, h2]
        exact find?_map_replace_other k k' v hne as
      | false =>
        simp only [List.map_cons, List.find?_cons, hbeq]
        rw [if_neg (by simp)]
        rw [find?_map_replace_other k k' v hne as]

theorem find?_dictInsert_self (fs : List (String × Json)) (k : String) (v : Json) :
    (dictInsert fs k v).find? (fun kv => kv.1 == k) = some (k, v) := by
  unfold dictInsert
  by_cases h : fs.any (fun kv => kv.1 == k)
  · simp only [h, if_true]
    rw [find?_map_replace_self k v fs, if_pos h]
  · simp only [h, Bool.false_eq_true, if_false]
    have hne : fs.find? (fun kv => kv.1 == k) = none := by
      rw [List.find?_eq_none]
      intro a ha hk
      exact h (List.any_of_mem ha hk)
    simp [List.find?_append, hne, List.find?_cons]

theorem find?_dictInsert_other (fs : List (String × Json)) (k k' : String) (v : Json)
    (hne : k' ≠ k) :
    (dictInsert fs k v).find? (fun kv => kv.1 == k') = fs.find? (fun kv => kv.1 == k') := by
  unfold dictInsert
  by_cases h : fs.any (fun kv => kv.1 == k)
  · simp only [h, if_true]
    exact find?_map_replace_other k k' v hne fs
  · simp only [h, Bool.false_eq_true, if_false]
    have hkk : ((k, v).1 == k') = false := by
      simp only [beq_eq_false_iff_ne, ne_eq]
      exact fun hkk => hne hkk.symm
    simp [List.find?_append, List.find?_cons, hkk]

theorem jget_objSet_self (fs : List (String × Json)) (k : String) (v : Json) :
    jget (objSet (.obj fs) k v) k = v := by
  simp [jget, objSet, jgetD, find?_dictInsert_self]

theorem jget_objSet_other (p : Json) (k k' : String) (v : Json) (hne : k' ≠ k) :
    jget (objSet p k v) k' = jget p k' := by
  cases p <;> simp [jget, objSet, jgetD]
  rw [find?_dictInsert_other _ _ _ _ hne]

theorem jget_obj_dictInsert_self (gs : List (String × Json)) (k : String) (v : Json) :
    jget (.obj (dictInsert gs k v)) k = v := by
  simp [jget, jgetD, find?_dictInsert_self]

theorem jget_obj_dictInsert_other (gs : List (String × Json)) (k k' : String) (v : Json)
    (hne : k' ≠ k) :
    jget (.obj (dictInsert gs k v)) k' = jget (.obj gs) k' := by
  simp only [jget, jgetD]
  rw [find?_dictInsert_other _ _ _ _ hne]

theorem normalizeRecord_imageUrl (fs : List (String × Json)) :
    jget (normalizeRecord (Json.obj fs)) "imageUrl" =
      (if pyTruthy (jget (Json.obj fs) "mediaGuid") then
        Json.str (IMAGE_BASE ++ pyToStr (jget (Json.obj fs) "mediaGuid") ++ ".jpg")
      else Json.null) := by
  show jget (Json.obj (dictInsert (dictInsert fs "propertyUrl" _) "imageUrl" _)) "imageUrl" = _
  rw [jget_obj_dictInsert_self]
  rw [jget_objSet_other _ _ _ _ (by decide)]

theorem normalizeRecord_propertyUrl (fs : List (String × Json)) :
    jget (normalizeRecord (Json.obj fs)) "propertyUrl" =
      (match make_slug (jget (Json.obj fs) "addressLine1") (jget (Json.obj fs) "city")
          (jget (Json.obj fs) "state") (jget (Json.obj fs) "zip") with
       | some s =>
         if s == "" then Json.null
         else Json.str (DETAIL_BASE ++ pyToStr (jget (Json.obj fs) "assetId") ++ "/" ++ s)
       | none => Json.null) := by
  show jget (Json.obj (dictInsert (dictInsert fs "propertyUrl" _) "imageUrl" _)) "propertyUrl" = _
  rw [jget_obj_dictInsert_other _ _ _ _ (by decide)]
  rw [jget_obj_dictInsert_self]

/-! ## Claim theorems -/

/-- C3: for every page fetch, any failure — a raised network request, a
response without the embedded `let model = {...};` pattern, or a JSON
decode error after trailing-comma cleanup (both of the latter make
`parse_model` return `None`) — yields the degraded `PageResult` with empty
records, null metadata and empty pagination; `fetch_page` is a total
function, modelling that no failure propagates out of it and aborts the
run. -/
theorem c3_fetch_failure_soft (active : Bool) (page : Int) (resp : Except Unit String)
    (h : resp = .error () ∨ ∃ t, resp = .ok t ∧ parse_model t = none) :
    fetch_page active page resp = emptyPageResult := by
  rcases h with h | ⟨t, ht, hp⟩
  · subst h
    exact fetch_page_error active page
  · subst ht
    exact fetch_page_parse_none active page t hp

/-- Witness for C3: a raised request, a pattern-free body, and a body whose
embedded JSON is malformed even after cleanup all degrade to the empty
`PageResult`. -/
theorem c3_fetch_failure_soft_witness :
    fetch_page true 1 (.error ()) = emptyPageResult ∧
    fetch_page true 2 (.ok "no model here") = emptyPageResult ∧
    fetch_page true 3 (.ok "let model = \x7b\"broken\": ,\x7d;") = emptyPageResult :=
  ⟨c3_fetch_failure_soft true 1 _ (Or.inl rfl),
   c3_fetch_failure_soft true 2 _ (Or.inr ⟨_, rfl, by decide⟩),
   c3_fetch_failure_soft true 3 _ (Or.inr ⟨_, rfl, by decide⟩)⟩

/-- C9 counterexample: a record whose media identifier is the non-null
empty string gets a null media URL, refuting "non-null media identifier
implies derived media URL". -/
theorem c9_counterexample :
    jget (Json.obj [("mediaGuid", Json.str "")]) "mediaGuid" ≠ Json.null ∧
    jget (normalizeRecord (Json.obj [("mediaGuid", Json.str "")])) "imageUrl" = Json.null := by
  constructor
  · decide
  · decide

/-- C9 (amended): for every record, a truthy (non-null, non-empty) media
identifier yields the fixed base URL concatenated with the identifier and
the `.jpg` suffix; a falsy one (null, absent, or empty) yields null. -/
theorem c9_media_url (p : Json) (fs : List (String × Json)) (hp : p = .obj fs) :
    (pyTruthy (jget p "mediaGuid") = true →
      jget (normalizeRecord p) "imageUrl" =
        .str (IMAGE_BASE ++ pyToStr (jget p "mediaGuid") ++ ".jpg")) ∧
    (pyTruthy (jget p "mediaGuid") = false →
      jget (normalizeRecord p) "imageUrl" = .null) := by
  subst hp
  rw [normalizeRecord_imageUrl fs]
  constructor
  · intro ht
    rw [if_pos ht]
  · intro hf
    rw [if_neg (by simp [hf])]

/-- Witness for C9: a record with media identifier `"g1"` derives the full
image URL; a record without one derives null. -/
theorem c9_media_url_witness :
    jget (normalizeRecord (Json.obj [("mediaGuid", Json.str "g1")])) "imageUrl" =
      Json.str "https://s3.amazonaws.com/photos.vrmresales.com/g1.jpg" ∧
    jget (normalizeRecord (Json.obj [("city", Json.str "x")])) "imageUrl" = Json.null := by
  constructor
  · have h := (c9_media_url (Json.obj [("mediaGuid", Json.str "g1")])
      [("mediaGuid", Json.str "g1")] rfl).1 (by decide)
    exact h.trans (by decide)
  · exact (c9_media_url (Json.obj [("city", Json.str "x")])
      [("city", Json.str "x")] rfl).2 (by decide)

/-- C8 counterexample: with `ZAPIER_SECRET` set and a missing API key, a
start request issued while a run is in progress is rejected with 401 — it
does not return the existing Progress. -/
theorem c8_counterexample :
    stRunning.progress.running = true ∧
    (start_properties_scrape (some "s") none stRunning).1 = .error .unauthorized := by
  constructor
  · rfl
  · rfl

/-- C8 (amended): a start request issued while `Progress.running` is true
leaves the whole application state — all Progress fields, the cancellation
flag, and the set of scheduled runs — exactly as it was, and, when it
passes the authorization check, returns the existing Progress in an
"already running" response. -/
theorem c8_start_rejection (secret key : Option String) (st : AppState)
    (h : st.progress.running = true) :
    (start_properties_scrape secret key st).2 = st ∧
    (authOk secret key = true →
      (start_properties_scrape secret key st).1 = .ok (.alreadyRunning st.progress)) := by
  unfold start_properties_scrape
  by_cases ha : authOk secret key = true
  · simp [ha, h]
  · simp [Bool.not_eq_true] at ha
    simp [ha]

/-- Witness for C8: with auth disabled and a running Progress, the request
returns the existing Progress and changes nothing. -/
theorem c8_start_rejection_witness :
    (start_properties_scrape none none stRunning).2 = stRunning ∧
    (start_properties_scrape none none stRunning).1 =
      .ok (.alreadyRunning stRunning.progress) :=
  ⟨(c8_start_rejection none none stRunning rfl).1,
   (c8_start_rejection none none stRunning rfl).2 rfl⟩

/-- C6 (code bug in the source): when the `latest`-artifact write raises,
`scrape_all_pages` has no try/except around `save_properties_to_disk`, so
the run aborts with the uncaught exception — the data is not returned, the
completion bookkeeping is skipped (`PROGRESS` stays `running = True`
forever), and nothing is persisted. -/
theorem c6_persistence_failure_aborts :
    (scrape_all_pages envC6).isCrashed = true ∧
    (scrape_all_pages envC6).progressOf.running = true ∧
    (scrape_all_pages envC6).storeOf.latest = none := by
  refine ⟨?_, ?_, ?_⟩ <;> decide

/-- C4 counterexample: with six snapshots on disk and every deletion
failing, a snapshot write completes normally (deletion failures never fail
the run) yet leaves seven timestamped snapshots — more than five. -/
theorem c4_counterexample :
    (save_properties_to_disk stSix dataEmpty 7 false false (fun _ => true)).1 = none ∧
    (save_properties_to_disk stSix dataEmpty 7 false false
        (fun _ => true)).2.snapshots.length = 7 := by
  constructor
  · decide
  · decide

/-- C4 (amended): after every successful snapshot write the store orders
all timestamped artifacts by modification time descending and attempts to
delete every artifact beyond the 5 most recent; a deletion failure never
fails the run (the write returns normally for every failure pattern), and
when all deletions succeed exactly the 5 most recent artifacts remain —
in particular at most 5. -/
theorem c4_retention (st : Store) (data : RunData) (now : Nat) (uf : Nat → Bool) :
    (save_properties_to_disk st data now false false uf).1 = none ∧
    ((∀ n, uf n = false) →
      (save_properties_to_disk st data now false false uf).2.snapshots =
        (sortSnapshotsDesc (st.snapshots ++ [⟨now, now⟩])).take 5 ∧
      (save_properties_to_disk st data now false false uf).2.snapshots.length ≤ 5) := by
  constructor
  · rfl
  · intro h
    have hf : ((sortSnapshotsDesc (st.snapshots ++ [⟨now, now⟩])).drop 5).filter
        (fun s => uf s.stamp) = [] := by
      apply List.filter_eq_nil_iff.mpr
      intro a _
      simp [h a.stamp]
    constructor
    · show (sortSnapshotsDesc (st.snapshots ++ [⟨now, now⟩])).take 5 ++
        ((sortSnapshotsDesc (st.snapshots ++ [⟨now, now⟩])).drop 5).filter
          (fun s => uf s.stamp) = _
      rw [hf, List.append_nil]
    · show ((sortSnapshotsDesc (st.snapshots ++ [⟨now, now⟩])).take 5 ++
        ((sortSnapshotsDesc (st.snapshots ++ [⟨now, now⟩])).drop 5).filter
          (fun s => uf s.stamp)).length ≤ 5
      rw [hf, List.append_nil]
      exact List.length_take_le 5 _

/-- Witness for C4: a concrete store with six snapshots and no deletion
failures keeps exactly the five most recent after a write. -/
theorem c4_retention_witness :
    (save_properties_to_disk stSix dataEmpty 7 false false (fun _ => false)).1 = none ∧
    (save_properties_to_disk stSix dataEmpty 7 false false (fun _ => false)).2.snapshots =
      (sortSnapshotsDesc (stSix.snapshots ++ [⟨7, 7⟩])).take 5 ∧
    (save_properties_to_disk stSix dataEmpty 7 false false
        (fun _ => false)).2.snapshots.length ≤ 5 := by
  have h := c4_retention stSix dataEmpty 7 (fun _ => false)
  exact ⟨h.1, (h.2 (fun n => rfl)).1, (h.2 (fun n => rfl)).2⟩

theorem collectPages_trace (env : RunEnv) (total : Int) :
    ∀ (ps : List Int) (prog : Progress),
      (collectPages env total ps prog).2.2 = ps.takeWhile (fun q => activeFor env.killAt q)
  | [], _ => rfl
  | p :: ps, prog => by
      by_cases h : activeFor env.killAt p = true
      · simp [collectPages, h, List.takeWhile_cons, collectPages_trace env total ps]
      · simp only [Bool.not_eq_true] at h
        simp [collectPages, h, List.takeWhile_cons]

theorem collectPages_results (env : RunEnv) (total : Int) :
    ∀ (ps : List Int) (prog : Progress),
      (collectPages env total ps prog).1 =
        (ps.takeWhile (fun q => activeFor env.killAt q)).map
          (fun q => fetch_page (activeFor env.killAt q) q (env.responses q))
  | [], _ => rfl
  | p :: ps, prog => by
      by_cases h : activeFor env.killAt p = true
      · simp [collectPages, h, List.takeWhile_cons, collectPages_results env total ps]
      · simp only [Bool.not_eq_true] at h
        simp [collectPages, h, List.takeWhile_cons]

theorem collectPages_running (env : RunEnv) (total : Int) :
    ∀ (ps : List Int) (prog : Progress),
      (collectPages env total ps prog).2.1.running = prog.running
  | [], _ => rfl
  | p :: ps, prog => by
      by_cases h : activeFor env.killAt p = true
      · simp [collectPages, h, collectPages_running env total ps]
      · simp only [Bool.not_eq_true] at h
        simp [collectPages, h]

theorem takeWhile_true_list (l : List Int) : l.takeWhile (fun _ => true) = l := by
  induction l with
  | nil => rfl
  | cons a l ih => simp [List.takeWhile_cons, ih]

theorem activeFor_none : activeFor none = fun _ => true := rfl

/-- C5 counterexample: a page-1 response that parses fine but declares
`"totalPages": null` is not defaulted to 1 — the `None` read from the
pagination dict reaches `range(2, total_pages + 1)` and the run aborts
with an uncaught `TypeError`. -/
theorem c5_counterexample :
    runRawTotal envC5cex = Json.null ∧
    (scrape_all_pages envC5cex).isCrashed = true := by
  constructor
  · decide
  · decide

/-- C5 (amended): the run fetches page 1 first and reads the declared
total-page count from its pagination block; the count defaults to 1
exactly when the pagination dict lacks the key — i.e. when page 1 failed —
and the run then iterates pages 2 through the total (shown for an
unkilled run: its page trace is `1 :: [2..total]`).  A present-but-null or
otherwise non-integer count is not defaulted; it raises when building the
page range (see the counterexample). -/
theorem c5_total_pages :
    (∀ env : RunEnv, (runFirst env).pagination = none →
      runRawTotal env = Json.num "1" ∧ pyIntOfJson (runRawTotal env) = .ok 1) ∧
    (∀ (env : RunEnv) (total : Int) (d : RunData) (p : Progress) (st : Store)
        (tr : List Int),
      env.killAt = none → pyIntOfJson (runRawTotal env) = .ok total →
      scrape_all_pages env = .ok d p st tr → tr = 1 :: intRange 2 total) := by
  constructor
  · intro env h
    constructor
    · unfold runRawTotal
      rw [h]
      rfl
    · unfold runRawTotal
      rw [h]
      rfl
  · intro env total d p st tr hk htot hrun
    unfold scrape_all_pages at hrun
    rw [htot] at hrun
    simp only [] at hrun
    by_cases hknown : (!(runNewIds env total).isEmpty && env.knownFail) = true
    · rw [if_pos hknown] at hrun
      exact absurd hrun (by simp)
    · rw [if_neg hknown] at hrun
      rcases hsave : save_properties_to_disk (runStore1 env total) (runData env total)
          env.endTime env.latestFail env.snapFail env.unlinkFails with ⟨err, st2⟩
      rw [hsave] at hrun
      cases err with
      | some e => exact absurd hrun (by simp)
      | none =>
        have htr : tr = 1 :: (runLoop env total).2.2 := by
          injection hrun with h1 h2 h3 h4
          exact h4.symm
        rw [htr]
        unfold runLoop
        rw [collectPages_trace env total, hk, activeFor_none, takeWhile_true_list]

/-- Witness for C5: a run whose page-1 fetch raises defaults the count to
1, and the concrete one-page run visits exactly page 1. -/
theorem c5_total_pages_witness :
    (runRawTotal envC10w = Json.num "1" ∧ pyIntOfJson (runRawTotal envC10w) = .ok 1) ∧
    (scrape_all_pages envC2).traceOf = 1 :: intRange 2 1 := by
  constructor
  · exact c5_total_pages.1 envC10w (by decide)
  · rcases hrun : scrape_all_pages envC2 with ⟨d, p, st, tr⟩ | ⟨e, p, st, tr⟩
    · have htr := c5_total_pages.2 envC2 1 d p st tr rfl (by rfl) hrun
      exact htr
    · have hc : (scrape_all_pages envC2).isCrashed = false := by decide
      rw [hrun] at hc
      exact absurd hc (by simp [RunOutcome.isCrashed])

theorem contains_iff_mem_json (l : List Json) (x : Json) : l.contains x = true ↔ x ∈ l := by
  simp [List.contains_iff_exists_mem_beq]

theorem computeNewIds_foldl_mem (known : List Json) :
    ∀ (props acc : List Json) (x : Json),
      (x ∈ props.foldl (fun acc p =>
          let pid := jget p "assetId"
          if pyTruthy pid && !known.contains pid && !acc.contains pid then acc ++ [pid]
          else acc) acc) ↔
        x ∈ acc ∨ (pyTruthy x = true ∧ x ∉ known ∧ ∃ p ∈ props, jget p "assetId" = x)
  | [], acc, x => by simp
  | p :: ps, acc, x => by
      rw [List.foldl_cons]
      rw [computeNewIds_foldl_mem known ps _ x]
      simp only []
      by_cases hcond : (pyTruthy (jget p "assetId") && !known.contains (jget p "assetId")
          && !acc.contains (jget p "assetId")) = true
      · rw [if_pos hcond]
        simp only [Bool.and_eq_true, Bool.not_eq_true'] at hcond
        obtain ⟨⟨hT, hK⟩, hA⟩ := hcond
        have hKm : jget p "assetId" ∉ known := by
          intro hm
          rw [(contains_iff_mem_json known _).mpr hm] at hK
          simp at hK
        constructor
        · rintro (hacc | hrest)
          · rw [List.mem_append] at hacc
            rcases hacc with h | h
            · exact Or.inl h
            · have hx : x = jget p "assetId" := by simpa using h
              subst hx
              exact Or.inr ⟨hT, hKm, p, List.mem_cons_self p ps, rfl⟩
          · obtain ⟨hTx, hKx, q, hq, hid⟩ := hrest
            exact Or.inr ⟨hTx, hKx, q, List.mem_cons_of_mem p hq, hid⟩
        · rintro (h | ⟨hTx, hKx, q, hq, hid⟩)
          · exact Or.inl (List.mem_append_left _ h)
          · rcases List.mem_cons.mp hq with hqp | hq'
            · subst hqp
              exact Or.inl (List.mem_append_right _ (by simp [hid]))
            · exact Or.inr ⟨hTx, hKx, q, hq', hid⟩
      · rw [if_neg hcond]
        constructor
        · rintro (h | ⟨hTx, hKx, q, hq, hid⟩)
          · exact Or.inl h
          · exact Or.inr ⟨hTx, hKx, q, List.mem_cons_of_mem p hq, hid⟩
        · rintro (h | ⟨hTx, hKx, q, hq, hid⟩)
          · exact Or.inl h
          · rcases List.mem_cons.mp hq with hqp | hq'
            · subst hqp
              by_cases hacc : x ∈ acc
              · exact Or.inl hacc
              · exfalso
                apply hcond
                rw [hid]
                have h1 : known.contains x = false := by
                  cases hc : known.contains x
                  · rfl
                  · exact absurd ((contains_iff_mem_json _ _).mp hc) hKx
                have h2 : acc.contains x = false := by
                  cases hc : acc.contains x
                  · rfl
                  · exact absurd ((contains_iff_mem_json _ _).mp hc) hacc
                simp only [hTx, h1, h2]
                simp
            · exact Or.inr ⟨hTx, hKx, q, hq', hid⟩

theorem save_preserves_knownIds (st : Store) (data : RunData) (now : Nat)
    (lf sf : Bool) (uf : Nat → Bool) :
    (save_properties_to_disk st data now lf sf uf).2.knownIds = st.knownIds := by
  cases lf <;> cases sf <;> rfl

/-- C2 counterexample: with known set `{A, B}` and a run whose single
record carries the non-null empty-string identifier, the persisted set is
left at `{A, B}` (the file is not even rewritten) instead of growing to
the union with the run's non-null identifiers. -/
theorem c2_counterexample :
    (scrape_all_pages envC2cex).dataOf.map RunData.properties =
      some [Json.obj [("assetId", Json.str ""), ("propertyUrl", Json.null),
        ("imageUrl", Json.null)]] ∧
    jget (Json.obj [("assetId", Json.str ""), ("propertyUrl", Json.null),
        ("imageUrl", Json.null)]) "assetId" ≠ Json.null ∧
    (scrape_all_pages envC2cex).storeOf.knownIds = some [Json.str "A", Json.str "B"] := by
  refine ⟨?_, ?_, ?_⟩
  · decide
  · decide
  · decide

/-- C2 (amended): (1) for the known set `{A, B}` and a run carrying
identifiers `A, C, D`, the reported new-discoveries count is 2 and the
persisted set is `[A, B, C, D]` (the model's list is one representative of
the Python set `{A, B, C, D}`); (2) in general, the persisted list
`known ++ new_ids` holds exactly the union of the old set and the run's
truthy (non-null, non-empty) identifiers; (3) the known-ids file is
rewritten only when at least one genuinely new identifier was found, and
then to exactly that union. -/
theorem c2_identity_tracking :
    ((scrape_all_pages envC2).dataOf.map RunData.new_discoveries = some 2 ∧
     (scrape_all_pages envC2).storeOf.knownIds =
       some [Json.str "A", Json.str "B", Json.str "C", Json.str "D"]) ∧
    (∀ (known props : List Json) (x : Json),
      x ∈ known ++ computeNewIds known props ↔
        x ∈ known ∨ (pyTruthy x = true ∧ ∃ p ∈ props, jget p "assetId" = x)) ∧
    (∀ (env : RunEnv) (total : Int), pyIntOfJson (runRawTotal env) = .ok total →
      (runNewIds env total = [] →
        (scrape_all_pages env).storeOf.knownIds = env.store.knownIds) ∧
      (runNewIds env total ≠ [] → env.knownFail = false →
        (scrape_all_pages env).storeOf.knownIds =
          some (runKnown env ++ runNewIds env total))) := by
  refine ⟨⟨by decide, by decide⟩, ?_, ?_⟩
  · intro known props x
    rw [List.mem_append]
    rw [show computeNewIds known props = props.foldl (fun acc p =>
        let pid := jget p "assetId"
        if pyTruthy pid && !known.contains pid && !acc.contains pid then acc ++ [pid]
        else acc) [] from rfl]
    rw [computeNewIds_foldl_mem known props [] x]
    constructor
    · rintro (h | (h | ⟨hT, _, hex⟩))
      · exact Or.inl h
      · cases h
      · exact Or.inr ⟨hT, hex⟩
    · rintro (h | ⟨hT, hex⟩)
      · exact Or.inl h
      · by_cases hk : x ∈ known
        · exact Or.inl hk
        · exact Or.inr (Or.inr ⟨hT, hk, hex⟩)
  · intro env total htot
    constructor
    · intro hempty
      unfold scrape_all_pages
      rw [htot]
      simp only []
      have hcond : (!(runNewIds env total).isEmpty && env.knownFail) = false := by
        simp [hempty]
      rw [if_neg (by simp [hcond])]
      rcases hsave : save_properties_to_disk (runStore1 env total) (runData env total)
          env.endTime env.latestFail env.snapFail env.unlinkFails with ⟨err, st2⟩
      have hst2 : st2.knownIds = (runStore1 env total).knownIds := by
        have := save_preserves_knownIds (runStore1 env total) (runData env total)
          env.endTime env.latestFail env.snapFail env.unlinkFails
        rw [hsave] at this
        exact this
      have hstore1 : (runStore1 env total).knownIds = env.store.knownIds := by
        unfold runStore1
        rw [if_neg (by simp [hempty])]
      cases err with
      | some e => simp [RunOutcome.storeOf, hst2, hstore1]
      | none => simp [RunOutcome.storeOf, hst2, hstore1]
    · intro hne hkf
      unfold scrape_all_pages
      rw [htot]
      simp only []
      rw [if_neg (by simp [hkf])]
      rcases hsave : save_properties_to_disk (runStore1 env total) (runData env total)
          env.endTime env.latestFail env.snapFail env.unlinkFails with ⟨err, st2⟩
      have hst2 : st2.knownIds = (runStore1 env total).knownIds := by
        have := save_preserves_knownIds (runStore1 env total) (runData env total)
          env.endTime env.latestFail env.snapFail env.unlinkFails
        rw [hsave] at this
        exact this
      have hstore1 : (runStore1 env total).knownIds =
          some (runKnown env ++ runNewIds env total) := by
        unfold runStore1
        rw [if_pos (by simp [hne])]
      cases err with
      | some e => simp [RunOutcome.storeOf, hst2, hstore1]
      | none => simp [RunOutcome.storeOf, hst2, hstore1]

/-- Witness for C2: the no-new-ids run leaves the known-ids file untouched
(`envC10w`, every fetch failing), and the `{A,B}` + `[A,C,D]` run rewrites
it to the union. -/
theorem c2_identity_tracking_witness :
    (scrape_all_pages envC10w).storeOf.knownIds = envC10w.store.knownIds ∧
    (scrape_all_pages envC2).storeOf.knownIds =
      some (runKnown envC2 ++ runNewIds envC2 1) := by
  constructor
  · exact (c2_identity_tracking.2.2 envC10w 1 (by rfl)).1 (by decide)
  · exact (c2_identity_tracking.2.2 envC2 1 (by rfl)).2 (by decide) rfl

theorem mem_insertByMtimeDesc :
    ∀ (X : List Snapshot) (a t : Snapshot), t ∈ insertByMtimeDesc a X → t = a ∨ t ∈ X
  | [], a, t => by
      intro h
      simp [insertByMtimeDesc] at h
      exact Or.inl h
  | b :: X, a, t => by
      intro h
      unfold insertByMtimeDesc at h
      by_cases hlt : a.mtime < b.mtime
      · rw [if_pos hlt] at h
        rcases List.mem_cons.mp h with rfl | h'
        · exact Or.inr (List.mem_cons_self _ _)
        · rcases mem_insertByMtimeDesc X a t h' with h'' | h''
          · exact Or.inl h''
          · exact Or.inr (List.mem_cons_of_mem _ h'')
      · rw [if_neg hlt] at h
        rcases List.mem_cons.mp h with rfl | h'
        · exact Or.inl rfl
        · exact Or.inr h'

theorem sortSnapshotsDesc_append_max :
    ∀ (l : List Snapshot) (s : Snapshot), (∀ t ∈ l, t.mtime < s.mtime) →
      ∃ X, sortSnapshotsDesc (l ++ [s]) = s :: X ∧ ∀ t ∈ X, t.mtime < s.mtime
  | [], s, _ => ⟨[], rfl, by simp⟩
  | a :: l, s, h => by
      obtain ⟨X, hX, hXm⟩ := sortSnapshotsDesc_append_max l s
        (fun t ht => h t (List.mem_cons_of_mem a ht))
      refine ⟨insertByMtimeDesc a X, ?_, ?_⟩
      · show insertByMtimeDesc a (sortSnapshotsDesc (l ++ [s])) = _
        rw [hX]
        simp [insertByMtimeDesc, h a (List.mem_cons_self a l)]
      · intro t ht
        rcases mem_insertByMtimeDesc X a t ht with rfl | ht'
        · exact h t (List.mem_cons_self t l)
        · exact hXm t ht'

/-- C10: every run that reaches finalization persists unconditionally —
shown for a run in which every page fetch fails (or that was killed before
its first fetch): the run still completes normally, returns a zero-record
dataset, overwrites the `latest` artifact with it, and writes a fresh
timestamped snapshot (which, the store's clock having advanced past every
existing snapshot, survives the pruning pass). -/
theorem c10_unconditional_snapshot (env : RunEnv)
    (hresp : (∀ q, env.responses q = .error ()) ∨ ∃ k, env.killAt = some k ∧ k ≤ 1)
    (hl : env.latestFail = false) (hs : env.snapFail = false)
    (hm : ∀ t ∈ env.store.snapshots, t.mtime < env.endTime) :
    ∃ (d : RunData) (p : Progress) (st : Store) (tr : List Int),
      scrape_all_pages env = .ok d p st tr ∧
      d.count = 0 ∧ d.properties = [] ∧
      st.latest = some d ∧
      (⟨env.endTime, env.endTime⟩ : Snapshot) ∈ st.snapshots := by
  have hfirst : runFirst env = emptyPageResult := by
    unfold runFirst
    rcases hresp with h | ⟨k, hk, hk1⟩
    · rw [h 1]
      exact fetch_page_error _ 1
    · have hact : activeFor env.killAt 1 = false := by
        rw [hk]
        simp only [activeFor, decide_eq_false_iff_not]
        omega
      rw [hact]
      rfl
  have hraw : runRawTotal env = Json.num "1" := by
    unfold runRawTotal
    rw [hfirst]
    rfl
  have htot : pyIntOfJson (runRawTotal env) = .ok 1 := by rw [hraw]; rfl
  have hloop1 : (runLoop env 1).1 = [] := by
    unfold runLoop
    rfl
  have hprops : runAllProps env 1 = [] := by
    unfold runAllProps
    rw [hfirst, hloop1]
    rfl
  have hnids : runNewIds env 1 = [] := by
    unfold runNewIds
    rw [hprops]
    rfl
  have hstore1 : runStore1 env 1 = env.store := by
    unfold runStore1
    rw [hnids]
    rfl
  unfold scrape_all_pages
  rw [htot]
  simp only []
  rw [if_neg (by simp [hnids])]
  rw [hstore1, hl, hs]
  obtain ⟨X, hX, _⟩ := sortSnapshotsDesc_append_max env.store.snapshots
    ⟨env.endTime, env.endTime⟩ (fun t ht => hm t ht)
  have hsv : save_properties_to_disk env.store (runData env 1) env.endTime false false
      env.unlinkFails =
      (none,
        { latest := some (runData env 1),
          snapshots :=
            (sortSnapshotsDesc (env.store.snapshots ++ [⟨env.endTime, env.endTime⟩])).take 5
              ++ ((sortSnapshotsDesc (env.store.snapshots
                    ++ [⟨env.endTime, env.endTime⟩])).drop 5).filter
                  (fun s => env.unlinkFails s.stamp),
          knownIds := env.store.knownIds }) := rfl
  rw [hsv]
  refine ⟨runData env 1, runProgF env 1, _, _, rfl, ?_, ?_, rfl, ?_⟩
  · show (runAllProps env 1).length = 0
    rw [hprops]
    rfl
  · show runAllProps env 1 = []
    exact hprops
  · rw [hX]
    exact List.mem_append_left _ (List.mem_cons_self _ _)

/-- Witness for C10: the concrete all-fetches-fail environment `envC10w`
(which starts with a non-empty previous `latest` dataset). -/
theorem c10_unconditional_snapshot_witness :
    ∃ (d : RunData) (p : Progress) (st : Store) (tr : List Int),
      scrape_all_pages envC10w = .ok d p st tr ∧
      d.count = 0 ∧ d.properties = [] ∧
      st.latest = some d ∧
      (⟨envC10w.endTime, envC10w.endTime⟩ : Snapshot) ∈ st.snapshots :=
  c10_unconditional_snapshot envC10w (Or.inl fun _ => rfl) rfl rfl (by decide)

theorem runAllProps_length (env : RunEnv) (total : Int) :
    (runAllProps env total).length =
      (runFirst env).properties.length +
        (((intRange 2 total).takeWhile (fun q => activeFor env.killAt q)).map
          (fun q =>
            (fetch_page (activeFor env.killAt q) q (env.responses q)).properties.length)).sum := by
  unfold runAllProps runLoop
  rw [List.length_append, collectPages_results, List.length_flatten, List.map_map,
    List.map_map]
  rfl

/-- C7 counterexample: a three-page run whose remaining pages carry no
records, killed at the page-2 boundary.  The killed run's final count (1)
equals the full-catalog count (1) — not strictly less — and the final
Progress message is the run's completion message, the kill-time
"manually stopped" message having been overwritten. -/
theorem c7_counterexample :
    (scrape_all_pages envC7).dataOf.map RunData.count = some 1 ∧
    (scrape_all_pages envC7full).dataOf.map RunData.count = some 1 ∧
    (scrape_all_pages envC7).progressOf.running = false ∧
    (scrape_all_pages envC7).progressOf.message = .completed 1 100 ∧
    ProgressMessage.completed 1 100 ≠ ProgressMessage.manuallyStopped := by
  refine ⟨?_, ?_, ?_, ?_, ?_⟩ <;> decide

/-- C7 (amended): (1) an authorized kill request clears the shared
cancellation flag and immediately marks Progress not-running with the
manually-stopped message; (2) a run observing the cleared flag before page
`k` stops at that page boundary — its page loop visits exactly the pages
below `k`; (3) against the same catalog, the killed run's record count is
at most the unkilled run's, and strictly less whenever some uncollected
page carries at least one record; (4) a run that reaches its finalization
ends with Progress not-running — but its final message is the completion
message, which overwrites the kill-time manually-stopped message. -/
theorem c7_kill_switch :
    (∀ (secret key : Option String) (st : AppState), authOk secret key = true →
      (kill_scraper secret key st).2.scrapeActive = false ∧
      (kill_scraper secret key st).2.progress.running = false ∧
      (kill_scraper secret key st).2.progress.message = .manuallyStopped) ∧
    (∀ (env : RunEnv) (total k : Int), env.killAt = some k →
      (runLoop env total).2.2 = (intRange 2 total).takeWhile (fun q => decide (q < k))) ∧
    (∀ (env : RunEnv) (k total : Int), env.killAt = none → 2 ≤ k →
      (runAllProps { env with killAt := some k } total).length ≤
        (runAllProps env total).length ∧
      ((∃ q ∈ intRange 2 total, ¬(q < k) ∧
          (fetch_page true q (env.responses q)).properties ≠ []) →
        (runAllProps { env with killAt := some k } total).length <
          (runAllProps env total).length)) ∧
    (∀ (env : RunEnv) (total : Int) (d : RunData) (p : Progress) (st : Store)
        (tr : List Int),
      pyIntOfJson (runRawTotal env) = .ok total →
      scrape_all_pages env = .ok d p st tr →
      p.running = false ∧
      p.message = .completed d.count (env.endTime - env.startTime)) := by
  refine ⟨?_, ?_, ?_, ?_⟩
  · intro secret key st ha
    unfold kill_scraper
    rw [if_neg (by simp [ha])]
    exact ⟨rfl, rfl, rfl⟩
  · intro env total k hk
    unfold runLoop
    rw [collectPages_trace, hk]
    rfl
  · intro env k total hnone hk2
    have hact1 : activeFor (some k) 1 = true := by
      simp only [activeFor, decide_eq_true_eq]
      omega
    have hf : runFirst { env with killAt := some k } = runFirst env := by
      unfold runFirst
      show fetch_page (activeFor (some k) 1) 1 (env.responses 1) = _
      rw [hact1, hnone]
      rfl
    have hlenK : (runAllProps { env with killAt := some k } total).length =
        (runFirst env).properties.length +
          (((intRange 2 total).takeWhile (fun q => activeFor (some k) q)).map
            (fun q => (fetch_page true q (env.responses q)).properties.length)).sum := by
      rw [runAllProps_length, hf]
      congr 1
      apply congrArg
      apply List.map_congr_left
      intro q hq
      have := List.mem_takeWhile_imp hq
      show (fetch_page (activeFor (some k) q) q (env.responses q)).properties.length = _
      rw [this]
    have hlenF : (runAllProps env total).length =
        (runFirst env).properties.length +
          ((intRange 2 total).map
            (fun q => (fetch_page true q (env.responses q)).properties.length)).sum := by
      rw [runAllProps_length, hnone, activeFor_none, takeWhile_true_list]
    have hsplit : ((intRange 2 total).map
          (fun q => (fetch_page true q (env.responses q)).properties.length)).sum =
        (((intRange 2 total).takeWhile (fun q => activeFor (some k) q)).map
          (fun q => (fetch_page true q (env.responses q)).properties.length)).sum +
        (((intRange 2 total).dropWhile (fun q => activeFor (some k) q)).map
          (fun q => (fetch_page true q (env.responses q)).properties.length)).sum := by
      rw [← List.sum_append, ← List.map_append, List.takeWhile_append_dropWhile]
    constructor
    · rw [hlenK, hlenF, hsplit]
      omega
    · rintro ⟨q, hq, hqk, hne⟩
      have hqd : q ∈ (intRange 2 total).dropWhile (fun q => activeFor (some k) q) := by
        have hq' : q ∈ (intRange 2 total).takeWhile (fun q => activeFor (some k) q) ++
            (intRange 2 total).dropWhile (fun q => activeFor (some k) q) := by
          rw [List.takeWhile_append_dropWhile]
          exact hq
        rcases List.mem_append.mp hq' with h | h
        · exfalso
          have := List.mem_takeWhile_imp h
          simp only [activeFor, decide_eq_true_eq] at this
          exact hqk this
        · exact h
      have h1 : 0 < (fetch_page true q (env.responses q)).properties.length :=
        List.length_pos.mpr hne
      have h2 : (fetch_page true q (env.responses q)).properties.length ≤
          (((intRange 2 total).dropWhile (fun q => activeFor (some k) q)).map
            (fun q => (fetch_page true q (env.responses q)).properties.length)).sum :=
        List.single_le_sum (fun x _ => Nat.zero_le x) _ (List.mem_map_of_mem _ hqd)
      rw [hlenK, hlenF, hsplit]
      omega
  · intro env total d p st tr htot hrun
    unfold scrape_all_pages at hrun
    rw [htot] at hrun
    simp only [] at hrun
    by_cases hknown : (!(runNewIds env total).isEmpty && env.knownFail) = true
    · rw [if_pos hknown] at hrun
      exact absurd hrun (by simp)
    · rw [if_neg hknown] at hrun
      rcases hsave : save_properties_to_disk (runStore1 env total) (runData env total)
          env.endTime env.latestFail env.snapFail env.unlinkFails with ⟨err, st2⟩
      rw [hsave] at hrun
      cases err with
      | some e => exact absurd hrun (by simp)
      | none =>
        injection hrun with h1 h2 h3 h4
        subst h1
        subst h2
        exact ⟨rfl, rfl⟩

/-- Witness for C7: the kill endpoint's effect, the killed run's empty page
loop, a strict record-count drop when the skipped pages carry records, and
the killed run's final Progress. -/
theorem c7_kill_switch_witness :
    ((kill_scraper none none stRunning).2.scrapeActive = false ∧
     (kill_scraper none none stRunning).2.progress.running = false ∧
     (kill_scraper none none stRunning).2.progress.message = .manuallyStopped) ∧
    (runLoop envC7 3).2.2 = (intRange 2 3).takeWhile (fun q => decide (q < 2)) ∧
    (runAllProps { envC7s with killAt := some 2 } 3).length <
      (runAllProps envC7s 3).length ∧
    ((scrape_all_pages envC7).progressOf.running = false ∧
     ∃ d, (scrape_all_pages envC7).dataOf = some d ∧
       (scrape_all_pages envC7).progressOf.message =
         .completed d.count (envC7.endTime - envC7.startTime)) := by
  refine ⟨c7_kill_switch.1 none none stRunning rfl, c7_kill_switch.2.1 envC7 3 2 rfl, ?_, ?_⟩
  · exact (c7_kill_switch.2.2.1 envC7s 2 3 rfl (by omega)).2
      ⟨2, by decide, by decide, by decide⟩
  · rcases hrun : scrape_all_pages envC7 with ⟨d, p, st, tr⟩ | ⟨e, p, st, tr⟩
    · have h := c7_kill_switch.2.2.2 envC7 3 d p st tr (by rfl) hrun
      exact ⟨h.1, d, rfl, h.2⟩
    · have hc : (scrape_all_pages envC7).isCrashed = false := by decide
      rw [hrun] at hc
      exact absurd hc (by simp [RunOutcome.isCrashed])

/-! ### Slug pipeline lemmas: `.strip()` never changes the final slug -/

theorem stripHyphens_hyphen_cons (x : List Char) :
    stripHyphens ('-' :: x) = stripHyphens x := by
  unfold stripHyphens
  rw [List.dropWhile_cons_of_pos (by decide)]

theorem squeezeHyphens_cons_cons (c d : Char) (rest : List Char) :
    squeezeHyphens (c :: d :: rest) =
      if (c == '-' && d == '-') = true then squeezeHyphens (d :: rest)
      else c :: squeezeHyphens (d :: rest) := rfl

theorem squeezeHyphens_cons_head :
    ∀ (x : List Char) (a : Char), ∃ t, squeezeHyphens (a :: x) = a :: t
  | [], a => ⟨[], rfl⟩
  | d :: r, a => by
      by_cases h : (a == '-' && d == '-') = true
      · obtain ⟨t, ht⟩ := squeezeHyphens_cons_head r d
        have hh := (Bool.and_eq_true _ _).mp h
        have ha : a = '-' := by simpa using hh.1
        have hd : d = '-' := by simpa using hh.2
        refine ⟨t, ?_⟩
        rw [squeezeHyphens_cons_cons, if_pos h, ht, ha, hd]
      · refine ⟨squeezeHyphens (d :: r), ?_⟩
        rw [squeezeHyphens_cons_cons, if_neg h]

theorem stripHyphens_squeeze_hyphen_cons (x : List Char) :
    stripHyphens (squeezeHyphens ('-' :: x)) = stripHyphens (squeezeHyphens x) := by
  cases x with
  | nil => rfl
  | cons d r =>
    by_cases hd : (d == '-') = true
    · rw [squeezeHyphens_cons_cons, if_pos (by simp [hd])]
    · rw [squeezeHyphens_cons_cons, if_neg (by simp [hd]), stripHyphens_hyphen_cons]

theorem stripHyphens_squeeze_all_hyphens :
    ∀ (x : List Char), (∀ c ∈ x, c = '-') →
      stripHyphens (squeezeHyphens x) = []
  | [], _ => rfl
  | c :: r, h => by
      have hc : c = '-' := h c (List.mem_cons_self c r)
      subst hc
      rw [stripHyphens_squeeze_hyphen_cons]
      exact stripHyphens_squeeze_all_hyphens r (fun d hd => h d (List.mem_cons_of_mem _ hd))

theorem rdropIf_cons_ne (p : Char → Bool) (c : Char) (t : List Char)
    (h : p c = false) : ∃ z, rdropIf p (c :: t) = c :: z := by
  unfold rdropIf
  rcases hin : rdropIf p t with _ | ⟨z0, zr⟩
  · rw [h]
    exact ⟨[], by simp⟩
  · exact ⟨z0 :: zr, rfl⟩

theorem rdropIf_eq_nil_all :
    ∀ (p : Char → Bool) (x : List Char), rdropIf p x = [] → ∀ c ∈ x, p c = true
  | _, [], _ => by intro c hc; cases hc
  | p, c :: t, h => by
      intro e he
      rcases hin : rdropIf p t with _ | ⟨z0, zr⟩
      · have hc : p c = true := by
          by_contra hcf
          obtain ⟨z, hz⟩ := rdropIf_cons_ne p c t (Bool.not_eq_true _ ▸ hcf)
          rw [hz] at h
          cases h
        rcases List.mem_cons.mp he with rfl | he'
        · exact hc
        · exact rdropIf_eq_nil_all p t hin e he'
      · exfalso
        unfold rdropIf at h
        rw [hin] at h
        cases h

theorem rdropIf_cons (p : Char → Bool) (c : Char) (t : List Char) :
    rdropIf p (c :: t) =
      match rdropIf p t with
      | [] => if p c then [] else [c]
      | y => c :: y := rfl

theorem stripHyphens_cons_ne (a : Char) (S : List Char) (h : (a == '-') = false) :
    stripHyphens (a :: S) =
      match rdropIf (fun c => c == '-') S with
      | [] => [a]
      | y => a :: y := by
  unfold stripHyphens
  rw [List.dropWhile_cons_of_neg (by simp [h])]
  rw [rdropIf_cons]
  rcases hin : rdropIf (fun c => c == '-') S with _ | ⟨z0, zr⟩
  · rw [h]
    rfl
  · rfl

theorem rdropIf_squeeze_ne (d : Char) (x : List Char) (hd : (d == '-') = false) :
    rdropIf (fun c => c == '-') (squeezeHyphens (d :: x)) =
      stripHyphens (squeezeHyphens (d :: x)) := by
  obtain ⟨t, ht⟩ := squeezeHyphens_cons_head x d
  rw [ht]
  unfold stripHyphens
  rw [List.dropWhile_cons_of_neg (by simp [hd])]

theorem rdropIf_squeeze_hyphen :
    ∀ (x : List Char),
      rdropIf (fun c => c == '-') (squeezeHyphens ('-' :: x)) =
        (match stripHyphens (squeezeHyphens ('-' :: x)) with
         | [] => []
         | y => '-' :: y)
  | [] => by decide
  | d :: r => by
      by_cases hd : (d == '-') = true
      · have hde : d = '-' := by simpa using hd
        subst hde
        rw [squeezeHyphens_cons_cons, if_pos (by decide)]
        exact rdropIf_squeeze_hyphen r
      · have hd' : (d == '-') = false := by simpa using hd
        rw [squeezeHyphens_cons_cons, if_neg (by simp [hd'])]
        obtain ⟨t, ht⟩ := squeezeHyphens_cons_head r d
        rw [ht]
        rw [stripHyphens_hyphen_cons]
        have hsd : stripHyphens (d :: t) = rdropIf (fun c => c == '-') (d :: t) := by
          unfold stripHyphens
          rw [List.dropWhile_cons_of_neg (by simp [hd'])]
        rw [hsd]
        obtain ⟨z, hz⟩ := rdropIf_cons_ne (fun c => c == '-') d t hd'
        rw [rdropIf_cons, hz]

theorem stripHyphens_squeeze_cong (a d : Char) (x y : List Char)
    (h : stripHyphens (squeezeHyphens (d :: x)) = stripHyphens (squeezeHyphens (d :: y))) :
    stripHyphens (squeezeHyphens (a :: d :: x)) =
      stripHyphens (squeezeHyphens (a :: d :: y)) := by
  by_cases had : (a == '-' && d == '-') = true
  · rw [squeezeHyphens_cons_cons, squeezeHyphens_cons_cons, if_pos had, if_pos had]
    exact h
  · rw [squeezeHyphens_cons_cons, squeezeHyphens_cons_cons, if_neg had, if_neg had]
    by_cases ha : (a == '-') = true
    · have hae : a = '-' := by simpa using ha
      subst hae
      rw [stripHyphens_hyphen_cons, stripHyphens_hyphen_cons]
      exact h
    · have ha' : (a == '-') = false := by simpa using ha
      rw [stripHyphens_cons_ne a _ ha', stripHyphens_cons_ne a _ ha']
      have hr : rdropIf (fun c => c == '-') (squeezeHyphens (d :: x)) =
          rdropIf (fun c => c == '-') (squeezeHyphens (d :: y)) := by
        by_cases hdh : (d == '-') = true
        · have hde : d = '-' := by simpa using hdh
          subst hde
          rw [rdropIf_squeeze_hyphen x, rdropIf_squeeze_hyphen y, h]
        · have hd' : (d == '-') = false := by simpa using hdh
          rw [rdropIf_squeeze_ne d x hd', rdropIf_squeeze_ne d y hd', h]
      rw [hr]

theorem stripHyphens_squeeze_cons_all_hyphens (a : Char) :
    ∀ (w : List Char), (∀ e ∈ w, e = '-') →
      stripHyphens (squeezeHyphens (a :: w)) = stripHyphens (squeezeHyphens [a])
  | [], _ => rfl
  | e :: w', h => by
      have he : e = '-' := h e (List.mem_cons_self e w')
      subst he
      have hw' : ∀ e ∈ w', e = '-' := fun e he' => h e (List.mem_cons_of_mem _ he')
      by_cases ha : (a == '-') = true
      · have hae : a = '-' := by simpa using ha
        subst hae
        rw [squeezeHyphens_cons_cons, if_pos (by decide)]
        rw [stripHyphens_squeeze_all_hyphens ('-' :: w')
          (fun d hd => by rcases List.mem_cons.mp hd with rfl | hd'
                          · rfl
                          · exact hw' d hd')]
        decide
      · have ha' : (a == '-') = false := by simpa using ha
        rw [squeezeHyphens_cons_cons, if_neg (by simp [ha'])]
        rw [stripHyphens_cons_ne a _ ha']
        have hS : stripHyphens (squeezeHyphens ('-' :: w')) = [] :=
          stripHyphens_squeeze_all_hyphens ('-' :: w')
            (fun d hd => by rcases List.mem_cons.mp hd with rfl | hd'
                            · rfl
                            · exact hw' d hd')
        have hrd : rdropIf (fun c => c == '-') (squeezeHyphens ('-' :: w')) = [] := by
          rw [rdropIf_squeeze_hyphen w', hS]
        rw [hrd]
        show [a] = stripHyphens (squeezeHyphens [a])
        unfold squeezeHyphens stripHyphens
        rw [List.dropWhile_cons_of_neg (by simp [ha'])]
        simp [rdropIf, ha']

theorem isPySpace_not_alnum (c : Char) (h : isPySpace c = true) :
    isLowerAlnum c = false := by
  have hm : c ∈ pySpaceChars := by
    unfold isPySpace at h
    simpa [List.contains_iff_exists_mem_beq] using h
  fin_cases hm <;> decide

theorem strip_left_invariant :
    ∀ l : List Char,
      stripHyphens (collapseNA (l.dropWhile isPySpace)) = stripHyphens (collapseNA l)
  | [] => rfl
  | c :: r => by
      by_cases hc : isPySpace c = true
      · rw [List.dropWhile_cons_of_pos hc]
        rw [strip_left_invariant r]
        unfold collapseNA
        rw [List.map_cons]
        rw [if_neg (by simp [isPySpace_not_alnum c hc])]
        rw [stripHyphens_squeeze_hyphen_cons]
      · rw [List.dropWhile_cons_of_neg hc]

theorem strip_right_invariant :
    ∀ y : List Char,
      stripHyphens (collapseNA (rdropIf isPySpace y)) = stripHyphens (collapseNA y)
  | [] => rfl
  | c :: cs => by
      rcases hin : rdropIf isPySpace cs with _ | ⟨d0, z⟩
      · have hall : ∀ e ∈ cs, isPySpace e = true := rdropIf_eq_nil_all isPySpace cs hin
        have hmz : ∀ e ∈ cs.map (fun c => if isLowerAlnum c then c else '-'), e = '-' := by
          intro e he
          obtain ⟨c0, hc0, rfl⟩ := List.mem_map.mp he
          rw [if_neg (by simp [isPySpace_not_alnum c0 (hall c0 hc0)])]
        rw [rdropIf_cons, hin]
        by_cases hc : isPySpace c = true
        · rw [if_pos hc]
          unfold collapseNA
          rw [List.map_cons]
          rw [if_neg (by simp [isPySpace_not_alnum c hc])]
          rw [stripHyphens_squeeze_all_hyphens ('-' :: cs.map _)
            (fun d hd => by
              rcases List.mem_cons.mp hd with rfl | hd'
              · rfl
              · exact hmz d hd')]
          rfl
        · rw [if_neg hc]
          unfold collapseNA
          rw [List.map_cons, List.map_cons]
          rw [stripHyphens_squeeze_cons_all_hyphens _ _ hmz]
          rfl
      · have hcs : ∃ e cs', cs = e :: cs' := by
          cases cs with
          | nil => exact absurd hin (by simp [rdropIf])
          | cons e cs' => exact ⟨e, cs', rfl⟩
        obtain ⟨e, cs', rfl⟩ := hcs
        have hd0 : d0 = e := by
          rw [rdropIf_cons] at hin
          rcases hin2 : rdropIf isPySpace cs' with _ | ⟨w0, wr⟩
          · rw [hin2] at hin
            by_cases hpe : isPySpace e = true
            · rw [if_pos hpe] at hin
              cases hin
            · rw [if_neg hpe] at hin
              injection hin with h1 h2
              exact h1.symm
          · rw [hin2] at hin
            injection hin with h1 h2
            exact h1.symm
        subst hd0
        rw [rdropIf_cons, hin]
        unfold collapseNA
        rw [List.map_cons, List.map_cons, List.map_cons, List.map_cons]
        apply stripHyphens_squeeze_cong
        have hIH := strip_right_invariant (d0 :: cs')
        rw [hin] at hIH
        unfold collapseNA at hIH
        rw [List.map_cons, List.map_cons] at hIH
        exact hIH

theorem strip_invariant (l : List Char) :
    stripHyphens (collapseNA (pyStripL l)) = stripHyphens (collapseNA l) := by
  unfold pyStripL
  rw [strip_right_invariant (l.dropWhile isPySpace), strip_left_invariant l]

theorem pyTruthy_optJson (o : Option String) :
    pyTruthy (optJson o) = true ↔ optNonempty o := by
  cases o with
  | none => simp [optJson, pyTruthy, optNonempty]
  | some s => simp [optJson, pyTruthy, optNonempty]

/-- C1 counterexample: a record whose four address components are all the
non-empty string `"!"` gets the non-null empty slug (`""`) but a null
canonical URL — the URL is not non-null whenever all four components are
non-empty. -/
theorem c1_counterexample :
    make_slug (Json.str "!") (Json.str "!") (Json.str "!") (Json.str "!") = some "" ∧
    ("!" : String) ≠ "" ∧
    jget (normalizeRecord (Json.obj [("addressLine1", Json.str "!"), ("city", Json.str "!"),
      ("state", Json.str "!"), ("zip", Json.str "!")])) "propertyUrl" = Json.null := by
  refine ⟨by decide, by decide, by decide⟩

/-- C1 (amended): (1) the derived slug is non-null exactly when all four
address components are truthy (present and non-empty) — so when any
component is empty or null the slug, and with it the URL, is null; (2) for
non-empty string components the slug is the lower-cased
`address city state zip` with runs of non-alphanumeric characters
collapsed to single hyphens and no leading/trailing hyphens (`specSlug`);
(3) the canonical detail-page URL is non-null exactly when the slug is a
non-empty string — an all-punctuation address yields the empty slug and
hence a null URL even though every component is non-empty. -/
theorem c1_slug_and_url :
    (∀ a c s z : Option String,
      make_slug (optJson a) (optJson c) (optJson s) (optJson z) = none ↔
        ¬(optNonempty a ∧ optNonempty c ∧ optNonempty s ∧ optNonempty z)) ∧
    (∀ sa sc ss sz : String, sa ≠ "" → sc ≠ "" → ss ≠ "" → sz ≠ "" →
      make_slug (.str sa) (.str sc) (.str ss) (.str sz) =
        some (specSlug (sa ++ " " ++ sc ++ " " ++ ss ++ " " ++ sz))) ∧
    (∀ (p : Json) (fs : List (String × Json)), p = .obj fs →
      (jget (normalizeRecord p) "propertyUrl" ≠ Json.null ↔
        ∃ s, make_slug (jget p "addressLine1") (jget p "city") (jget p "state")
          (jget p "zip") = some s ∧ s ≠ "")) := by
  refine ⟨?_, ?_, ?_⟩
  · intro a c s z
    unfold make_slug
    by_cases hcond : (pyTruthy (optJson a) && pyTruthy (optJson c) && pyTruthy (optJson s)
        && pyTruthy (optJson z)) = true
    · rw [if_pos hcond]
      simp only [Bool.and_eq_true] at hcond
      obtain ⟨⟨⟨hA, hC⟩, hS⟩, hZ⟩ := hcond
      constructor
      · intro hs
        exact absurd hs (by simp)
      · intro hn
        exact absurd ⟨(pyTruthy_optJson a).mp hA, (pyTruthy_optJson c).mp hC,
          (pyTruthy_optJson s).mp hS, (pyTruthy_optJson z).mp hZ⟩ hn
    · rw [if_neg hcond]
      constructor
      · intro _ hall
        obtain ⟨hA, hC, hS, hZ⟩ := hall
        apply hcond
        simp only [Bool.and_eq_true]
        exact ⟨⟨⟨(pyTruthy_optJson a).mpr hA, (pyTruthy_optJson c).mpr hC⟩,
          (pyTruthy_optJson s).mpr hS⟩, (pyTruthy_optJson z).mpr hZ⟩
      · intro _
        rfl
  · intro sa sc ss sz ha hc hs hz
    unfold make_slug
    rw [if_pos (by simp [pyTruthy, ha, hc, hs, hz])]
    show some (String.mk (stripHyphens (collapseNA (pyStripL (lowerL
      ((pyToStr (Json.str sa) ++ " " ++ pyToStr (Json.str sc) ++ " "
        ++ pyToStr (Json.str ss) ++ " " ++ pyToStr (Json.str sz)).toList)))))) = _
    rw [strip_invariant]
    rfl
  · intro p fs hp
    subst hp
    rw [normalizeRecord_propertyUrl fs]
    rcases hms : make_slug (jget (Json.obj fs) "addressLine1") (jget (Json.obj fs) "city")
        (jget (Json.obj fs) "state") (jget (Json.obj fs) "zip") with _ | s
    · simp
    · show (if (s == "") = true then Json.null
          else Json.str (DETAIL_BASE ++ pyToStr (jget (Json.obj fs) "assetId") ++ "/" ++ s))
          ≠ Json.null ↔ _
      by_cases hse : (s == "") = true
      · rw [if_pos hse]
        have hs0 : s = "" := by simpa using hse
        subst hs0
        simp
      · rw [if_neg hse]
        have hsne : s ≠ "" := by simpa using hse
        simp [hsne]

/-- Witness for C1: a real address derives the expected slug (which
evaluates to the concrete hyphenated string), and a null city makes the
slug null. -/
theorem c1_slug_and_url_witness :
    make_slug (Json.str "123 Main St.") (Json.str "Springfield") (Json.str "IL")
        (Json.str "62704") =
      some (specSlug ("123 Main St." ++ " " ++ "Springfield" ++ " " ++ "IL"
        ++ " " ++ "62704")) ∧
    specSlug ("123 Main St." ++ " " ++ "Springfield" ++ " " ++ "IL" ++ " " ++ "62704") =
      "123-main-st-springfield-il-62704" ∧
    make_slug (optJson (some "a")) (optJson none) (optJson (some "c"))
      (optJson (some "d")) = none := by
  refine ⟨c1_slug_and_url.2.1 "123 Main St." "Springfield" "IL" "62704"
      (by decide) (by decide) (by decide) (by decide), by decide, ?_⟩
  apply (c1_slug_and_url.1 (some "a") none (some "c") (some "d")).mpr
  intro hall
  obtain ⟨_, hB, _, _⟩ := hall
  obtain ⟨t, ht, _⟩ := hB
  cases ht
